import Mathlib

/-!
# FilesController: a shallow embedding

The six request handlers of `controllers/FilesController.js` (`postUpload`,
`getShow`, `getIndex`, `putPublish`, `putUnpublish`, `getFile`) and their
helper `authenticate`, written as functions over an explicit world state.

* The `files` collection, the disk and the job queue are fields of `World`.
* Every call to an external service and every `response.send` is appended to
  `World.trace`, in program order.
* The token store, the `users` collection, the `ObjectId` constructor and the
  other library functions are read-only inputs gathered in `Env`.
* A handler ends either by returning or by throwing (a rejected promise).
-/

namespace FilesManager

/-! ## Values -/

/-- A Mongo `ObjectId`, identified by its hexadecimal rendering (`toString()`). -/
structure ObjectId where
  hex : String
deriving DecidableEq, Repr

/-- The JavaScript values that flow through the controller: the JSON scalars of
a request body or query string, `undefined` for an absent property, and
`ObjectId` instances. Numbers are the integers (the controller only tests
numbers for truthiness and for `=== 0`). -/
inductive JsVal where
  | undefined
  | null
  | bool (b : Bool)
  | num (n : Int)
  | str (s : String)
  | oid (i : ObjectId)
deriving DecidableEq, Repr

namespace JsVal

/-- JavaScript truthiness (`!v` is the negation). -/
def truthy : JsVal → Bool
  | undefined => false
  | null => false
  | bool b => b
  | num n => n != 0
  | str s => s != ""
  | oid _ => true

/-- The operator `a || b`. -/
def or (a b : JsVal) : JsVal := if a.truthy then a else b

/-- A destructuring default `{ x = d }`: the default applies to `undefined` only. -/
def orDefault (a d : JsVal) : JsVal := if a = undefined then d else a

/-- The method call `v.toString()`; `none` is the `TypeError` raised on
`undefined` and `null`. -/
def toStr : JsVal → Option String
  | undefined => none
  | null => none
  | bool b => some (if b then "true" else "false")
  | num n => some (toString n)
  | str s => some s
  | oid i => some i.hex

/-- Interpolation of a value in a template literal. -/
def interpolate : JsVal → String
  | undefined => "undefined"
  | null => "null"
  | v => (toStr v).getD ""

/-- A string-valued request property that may be absent. -/
def ofOptStr : Option String → JsVal
  | none => undefined
  | some s => str s

end JsVal

/-- Equality match of a query value against a stored field, as the document
store evaluates `{ field: q }`: `undefined` is sent as `null`, and `null`
matches a field that is `null` or missing; any other value matches the equal
value of the same type. -/
def mongoEq (q v : JsVal) : Bool :=
  match q with
  | .undefined => v == .undefined || v == .null
  | .null => v == .undefined || v == .null
  | _ => q == v

/-- The JavaScript numbers that page arithmetic produces: `NaN`, the two
infinities, and the integers that are doubles. -/
inductive JsNum where
  | nan
  | inf (negative : Bool)
  | int (n : Int)
deriving DecidableEq, Repr

instance (n : Nat) : OfNat JsNum n := ⟨.int n⟩

/-- The number of binary digits of `n`, by halving at most `fuel` times. -/
def bitLengthAux : Nat → Nat → Nat
  | 0, _ => 0
  | fuel + 1, n => if n = 0 then 0 else bitLengthAux fuel (n / 2) + 1

/-- The number of binary digits of `n` (`n` halvings are enough). -/
def bitLength (n : Nat) : Nat := bitLengthAux n n

/-- The double nearest to a natural number: the number itself up to 53
binary digits, else its 53 leading digits rounded (ties to the even one) and
scaled back; `none` when the result reaches `2 ^ 1024`, that is, `Infinity`. -/
def roundToDouble (n : Nat) : Option Nat :=
  let bits := bitLength n
  if bits ≤ 53 then some n
  else
    let shift := bits - 53
    let q := n / 2 ^ shift
    let r := n % 2 ^ shift
    let half := 2 ^ (shift - 1)
    let up := decide (half < r) || (decide (r = half) && decide (q % 2 = 1))
    let m := if up then q + 1 else q
    if 1024 < bits ∨ (bits = 1024 ∧ m = 2 ^ 53) then none else some (m * 2 ^ shift)

namespace JsNum

/-- The number value of a signed natural number. -/
def ofSigned (negative : Bool) (n : Nat) : JsNum :=
  match roundToDouble n with
  | none => inf negative
  | some v => int (if negative then -(v : Int) else (v : Int))

/-- The product `x * 20` of line 98. -/
def times20 : JsNum → JsNum
  | nan => nan
  | inf negative => inf negative
  | int n => ofSigned (decide (n < 0)) (n.natAbs * 20)

/-- The expression `x || 0`: `NaN` and zero are falsy. -/
def orZero : JsNum → JsNum
  | nan => int 0
  | x => x

end JsNum

/-- The characters that `parseInt` skips at the start of its argument: the
white space and line terminator code points of the language. -/
def isStrWhiteSpace (c : Char) : Bool :=
  let n := c.toNat
  n = 0x09 || n = 0x0A || n = 0x0B || n = 0x0C || n = 0x0D || n = 0x20 || n = 0xA0
    || n = 0x1680 || (0x2000 ≤ n && n ≤ 0x200A) || n = 0x2028 || n = 0x2029
    || n = 0x202F || n = 0x205F || n = 0x3000 || n = 0xFEFF

/-- The call `parseInt(s, 10)` on a string: leading white space, an optional
sign, then the longest run of decimal digits, read as a number; `NaN` when
there is no digit. -/
def parseInt (s : String) : JsNum :=
  let cs := s.toList.dropWhile isStrWhiteSpace
  let neg := cs.head? == some '-'
  let body := if cs.head? == some '-' || cs.head? == some '+' then cs.tail else cs
  let ds := body.takeWhile Char.isDigit
  if ds.isEmpty then .nan
  else JsNum.ofSigned neg (ds.foldl (fun a c => 10 * a + (c.toNat - 48)) 0)

/-! ## Documents, requests and the world -/

/-- A document of the `users` collection (only `_id` is read). -/
structure User where
  id : ObjectId
deriving DecidableEq, Repr

/-- A document of the `files` collection. `id` is the field `_id`. -/
structure FileRecord where
  id : ObjectId
  userId : JsVal
  name : JsVal
  type : JsVal
  isPublic : JsVal
  parentId : JsVal
  localPath : Option String
deriving DecidableEq, Repr

/-- A job of the queue `fileQueue`. -/
structure Job where
  userId : JsVal
  fileId : ObjectId
deriving DecidableEq, Repr

/-- What is passed to `response.send`. -/
inductive Body where
  | error (message : String)
  | file (doc : FileRecord)
  | files (docs : List FileRecord)
  | bytes (data : List Nat) (contentType : JsVal)
deriving DecidableEq, Repr

/-- The observable actions of a handler. -/
inductive Event where
  | redisGet (key : String)
  | usersFindOne (id : ObjectId)
  | filesFindOne (id : ObjectId)
  | filesAggregate (parentId : JsVal) (skip : JsNum)
  | filesInsertOne (doc : FileRecord)
  | filesUpdateOne (id : ObjectId) (isPublic : Bool)
  | mkdir (dir : String)
  | writeFile (path : String)
  | readFile (path : String)
  | queueAdd (job : Job)
  | send (status : Nat) (body : Body)
deriving DecidableEq, Repr

/-- Errors thrown inside a handler: `ObjectId` rejecting its argument, an
unbound identifier, a method call on `undefined` or `null`, the store
rejecting a `$skip` stage, and `ERR_HTTP_HEADERS_SENT`. -/
inductive JsError where
  | invalidObjectId
  | referenceError (identifier : String)
  | typeError
  | invalidSkip
  | headersSent
deriving DecidableEq, Repr

/-- The body of an upload request. -/
structure UploadBody where
  name : JsVal
  type : JsVal
  data : JsVal
  isPublic : JsVal
  parentId : JsVal
deriving DecidableEq, Repr

/-- An incoming request: the header `X-Token`, the body, the path parameter
`id` and the query parameters `parentId`, `page` and `size`. -/
structure Request where
  xToken : Option String
  body : UploadBody
  paramsId : Option String
  queryParentId : Option String
  queryPage : Option String
  querySize : Option String
deriving DecidableEq, Repr

/-- The expression `request.params.id || ''` (lines 81, 110, 124, 135). -/
def Request.idFile (req : Request) : JsVal := (JsVal.ofOptStr req.paramsId).or (.str "")

/-- The expression `request.query.parentId || 0` (line 92). -/
def Request.indexParentId (req : Request) : JsVal :=
  (JsVal.ofOptStr req.queryParentId).or (.num 0)

/-- The value of `fileParentId` (lines 28 and 34): `parentId` defaults to `0`,
and the string `'0'` is replaced by the number `0`. -/
def UploadBody.fileParentId (body : UploadBody) : JsVal :=
  let parentId := body.parentId.orDefault (.num 0)
  if parentId = .str "0" then .num 0 else parentId

/-- The read-only surroundings of a handler. `toObjectId v` is the call
`ObjectId(v)`, `none` when it throws; `uuid`, `newId` and `fsWriteError` are
the results of `uuidv4()`, of the `_id` assigned by `insertOne`, and of the
disk write (`some message` when it fails); `fromBase64 v` is
`Buffer.from(v, 'base64')`, `none` when it throws. -/
structure Env where
  redis : String → Option String
  users : List User
  toObjectId : JsVal → Option ObjectId
  contentType : JsVal → JsVal
  folderPath : Option String
  uuid : String
  newId : ObjectId
  fsWriteError : Option String
  fromBase64 : JsVal → Option (List Nat)

/-- The mutable state a handler acts on. `statusCode` is the status the
response object currently holds (200 until `response.status` is called). -/
structure World where
  files : List FileRecord
  disk : List (String × List Nat)
  queue : List Job
  statusCode : Nat
  trace : List Event
deriving DecidableEq, Repr

/-- How a handler ended. -/
inductive Completion where
  | returned
  | threw (e : JsError)
deriving DecidableEq, Repr

/-- The result of running a handler. -/
structure Outcome where
  world : World
  completion : Completion
deriving DecidableEq, Repr

/-- The calls to `response.send` among a list of actions, in order. -/
def sentOf (evs : List Event) : List (Nat × Body) :=
  evs.filterMap fun e =>
    match e with
    | .send s b => some (s, b)
    | _ => none

namespace World

/-- A world with the given stores and a fresh response object. -/
def init (files : List FileRecord) (disk : List (String × List Nat)) (queue : List Job) : World :=
  { files := files, disk := disk, queue := queue, statusCode := 200, trace := [] }

/-- Record an action. -/
def emit (w : World) (e : Event) : World := { w with trace := w.trace ++ [e] }

/-- The call `response.status(code)`. -/
def status (w : World) (code : Nat) : World := { w with statusCode := code }

/-- The call `response.send(body)`, recorded with the status the response
holds. The call is recorded whether or not it succeeds, see `sendResult`. -/
def send (w : World) (body : Body) : World := w.emit (.send w.statusCode body)

/-- The call `response.status(code).send({ error: message })`. -/
def fail (w : World) (code : Nat) (message : String) : World :=
  (w.status code).send (.error message)

/-- The calls to `response.send` made so far, in order. The client receives
the first. -/
def sent (w : World) : List (Nat × Body) := sentOf w.trace

/-- Whether the response has been sent (`response.headersSent`). -/
def headersSent (w : World) : Bool := !w.sent.isEmpty

/-- How a `return response.send(...)` issued in the world `w` ends: once the
response has been sent, `send` throws `ERR_HTTP_HEADERS_SENT`. -/
def sendResult (w : World) : Completion :=
  if w.headersSent then .threw .headersSent else .returned

/-- The file stored at a path, if any. -/
def readDisk (w : World) (path : String) : Option (List Nat) :=
  (w.disk.find? fun e => e.1 == path).map Prod.snd

end World

/-! ## `authenticate` -/

/-- What `authenticate` returns: the user document, or, on each of its three
failure paths, the value of `response.status(401).send(...)`, which is the
response object itself. -/
inductive AuthResult where
  | user (u : User)
  | response
deriving DecidableEq, Repr

namespace AuthResult

/-- Truthiness of the returned value: both are objects. -/
def truthy : AuthResult → Bool
  | user _ => true
  | response => true

/-- The property access `user._id`. -/
def idField : AuthResult → JsVal
  | user u => .oid u.id
  | response => .undefined

end AuthResult

/-- The statement `return response.status(401).send({ error: 'Unauthorized' })`
of `authenticate`: the value returned is the response object. -/
def unauthorized (w : World) : World × Except JsError AuthResult :=
  (w.fail 401 "Unauthorized", if w.headersSent then .error .headersSent else .ok .response)

/-- The method `FilesController.authenticate` (lines 10-21). -/
def authenticate (env : Env) (req : Request) (w : World) : World × Except JsError AuthResult :=
  let token := (JsVal.ofOptStr req.xToken).or .null
  if !token.truthy then unauthorized w
  else
    let key := "auth_" ++ token.interpolate
    let w1 := w.emit (.redisGet key)
    let redisToken := JsVal.ofOptStr (env.redis key)
    if !redisToken.truthy then unauthorized w1
    else
      match env.toObjectId redisToken with
      | none => (w1, .error .invalidObjectId)
      | some uid =>
        let w2 := w1.emit (.usersFindOne uid)
        match env.users.find? (fun u => u.id == uid) with
        | none => unauthorized w2
        | some user => (w2, .ok (.user user))

/-! ## `getIndex` -/

/-- The pipeline `[$match: { parentId }, $skip: skip, $limit: 20]` on the
`files` collection. The store takes as `$skip` a non-negative integer that
fits 64 bits and rejects any other value. -/
def aggregate (files : List FileRecord) (parentId : JsVal) (skip : JsNum) :
    Except JsError (List FileRecord) :=
  match skip with
  | .int k =>
    if k < 0 ∨ 2 ^ 63 ≤ k then .error .invalidSkip
    else .ok (((files.filter fun r => mongoEq parentId r.parentId).drop k.toNat).take 20)
  | _ => .error .invalidSkip

/-- The expression `parseInt(request.query.page, 10) || 0` (line 93); an
absent `page` is `undefined`, whose string has no digit. -/
def pagination (req : Request) : JsNum :=
  match req.queryPage with
  | none => JsNum.nan.orZero
  | some s => (parseInt s).orZero

/-- The handler `FilesController.getIndex` (lines 88-104). -/
def getIndex (env : Env) (req : Request) (w : World) : Outcome :=
  match authenticate env req w with
  | (w1, .error e) => ⟨w1, .threw e⟩
  | (w1, .ok user) =>
    if !user.truthy then ⟨w1, .returned⟩
    else
      let parentId := req.indexParentId
      let skip := (pagination req).times20
      let w2 := w1.emit (.filesAggregate parentId skip)
      match aggregate w1.files parentId skip with
      | .error e => ⟨w2, .threw e⟩
      | .ok files => ⟨w2.send (.files files), w2.sendResult⟩

/-! ## `postUpload` -/

/-- The variables of `postUpload` that hold request data and are in scope
where the document `fileDataDb` is built (line 41), by name. The other
bindings in scope there are the imports, `request`, `response`, `fileQueue`
and `user`. -/
def postUploadScope (fileName fileType fileData isPublic parentId fileParentId : JsVal) :
    List (String × JsVal) :=
  [("fileName", fileName), ("fileType", fileType), ("fileData", fileData),
   ("isPublic", isPublic), ("parentId", parentId), ("fileParentId", fileParentId)]

/-- Evaluation of an identifier in a scope; `none` is a `ReferenceError`. -/
def lookupVar (scope : List (String × JsVal)) (x : String) : Option JsVal :=
  (scope.find? fun b => b.1 == x).map Prod.snd

/-- Lines 41-75 of `postUpload`: build the document, then store it (a folder
at once, a file or image after its bytes are written). -/
def postUploadStore (env : Env) (user : AuthResult)
    (fileName fileType fileData isPublic parentId fileParentId : JsVal) (w : World) : Outcome :=
  match lookupVar (postUploadScope fileName fileType fileData isPublic parentId fileParentId)
      "fileIsPublic" with
  | none => ⟨w, .threw (.referenceError "fileIsPublic")⟩
  | some fileIsPublic =>
    let fileDataDb : FileRecord :=
      { id := env.newId, userId := user.idField, name := fileName, type := fileType,
        isPublic := fileIsPublic, parentId := fileParentId, localPath := none }
    if fileType = .str "folder" then
      let w1 := { w.emit (.filesInsertOne fileDataDb) with files := w.files ++ [fileDataDb] }
      ⟨(w1.status 201).send (.file fileDataDb), w1.sendResult⟩
    else
      let pathDir := ((JsVal.ofOptStr env.folderPath).or (.str "/tmp/files_manager")).interpolate
      let fileUuid := env.uuid
      match env.fromBase64 fileData with
      | none => ⟨w, .threw .typeError⟩
      | some buff =>
        let pathFile := pathDir ++ "/" ++ fileUuid
        let w1 := w.emit (.mkdir pathDir)
        match env.fsWriteError with
        | some message => ⟨w1.fail 400 message, w1.sendResult⟩
        | none =>
          let w2 := { w1.emit (.writeFile pathFile) with disk := (pathFile, buff) :: w1.disk }
          let stored : FileRecord := { fileDataDb with localPath := some pathFile }
          let w3 := { w2.emit (.filesInsertOne stored) with files := w2.files ++ [stored] }
          let job : Job := { userId := stored.userId, fileId := stored.id }
          let w4 := { w3.emit (.queueAdd job) with queue := w3.queue ++ [job] }
          ⟨(w4.status 201).send (.file stored), w4.sendResult⟩

/-- The handler `FilesController.postUpload` (lines 23-75). Line 24 only
builds the handle of the queue. -/
def postUpload (env : Env) (req : Request) (w : World) : Outcome :=
  match authenticate env req w with
  | (w1, .error e) => ⟨w1, .threw e⟩
  | (w1, .ok user) =>
    if !user.truthy then ⟨w1, .returned⟩
    else
      let fileName := req.body.name
      let fileType := req.body.type
      let fileData := req.body.data
      let isPublic := req.body.isPublic.orDefault (.bool false)
      let parentId := req.body.parentId.orDefault (.num 0)
      if !fileName.truthy then ⟨w1.fail 400 "Missing name", w1.sendResult⟩
      else if !fileType.truthy
          || !([JsVal.str "folder", JsVal.str "file", JsVal.str "image"].contains fileType) then
        ⟨w1.fail 400 "Missing type", w1.sendResult⟩
      else if !fileData.truthy && [JsVal.str "file", JsVal.str "image"].contains fileType then
        ⟨w1.fail 400 "Missing data", w1.sendResult⟩
      else
        let fileParentId := req.body.fileParentId
        if fileParentId ≠ .num 0 then
          match env.toObjectId fileParentId with
          | none => ⟨w1, .threw .invalidObjectId⟩
          | some pid =>
            let w2 := w1.emit (.filesFindOne pid)
            match w1.files.find? (fun r => r.id == pid) with
            | none => ⟨w2.fail 400 "Parent not found", w2.sendResult⟩
            | some parentFile =>
              if parentFile.type ≠ .str "folder" then
                ⟨w2.fail 400 "Parent is not a folder", w2.sendResult⟩
              else
                postUploadStore env user fileName fileType fileData isPublic parentId
                  fileParentId w2
        else
          postUploadStore env user fileName fileType fileData isPublic parentId fileParentId w1

/-! ## `getShow`, `putPublish`, `putUnpublish` -/

/-- The query `findOne({ _id: id, userId: userId })` on the `files` collection. -/
def findOwned (files : List FileRecord) (id : ObjectId) (userId : JsVal) : Option FileRecord :=
  files.find? fun r => r.id == id && mongoEq userId r.userId

/-- The query `findOne({ _id: id })` on the `files` collection. -/
def findById (files : List FileRecord) (id : ObjectId) : Option FileRecord :=
  files.find? fun r => r.id == id

/-- The command `updateOne({ _id: id }, { $set: { isPublic: v } })`: the first
document with that `_id` is changed. -/
def updateOne (files : List FileRecord) (id : ObjectId) (v : Bool) : List FileRecord :=
  match files with
  | [] => []
  | r :: rs =>
    if r.id == id then { r with isPublic := .bool v } :: rs else r :: updateOne rs id v

/-- The handler `FilesController.getShow` (lines 77-86). -/
def getShow (env : Env) (req : Request) (w : World) : Outcome :=
  match authenticate env req w with
  | (w1, .error e) => ⟨w1, .threw e⟩
  | (w1, .ok user) =>
    if !user.truthy then ⟨w1, .returned⟩
    else
      let idFile := req.idFile
      match env.toObjectId idFile with
      | none => ⟨w1, .threw .invalidObjectId⟩
      | some fid =>
        let w2 := w1.emit (.filesFindOne fid)
        match findOwned w1.files fid user.idField with
        | none => ⟨w2.fail 404 "Not found", w2.sendResult⟩
        | some fileDocument => ⟨w2.send (.file fileDocument), w2.sendResult⟩

/-- The common body of `putPublish` (lines 106-118, `value = true`) and
`putUnpublish` (lines 120-132, `value = false`), which differ in that
constant only. -/
def setPublic (value : Bool) (env : Env) (req : Request) (w : World) : Outcome :=
  match authenticate env req w with
  | (w1, .error e) => ⟨w1, .threw e⟩
  | (w1, .ok user) =>
    if !user.truthy then ⟨w1, .returned⟩
    else
      let idFile := req.idFile
      match env.toObjectId idFile with
      | none => ⟨w1, .threw .invalidObjectId⟩
      | some fid =>
        let w2 := w1.emit (.filesFindOne fid)
        match findOwned w1.files fid user.idField with
        | none => ⟨w2.fail 404 "Not found", w2.sendResult⟩
        | some fileDocument =>
          let w3 := { w2.emit (.filesUpdateOne fid value) with
                      files := updateOne w2.files fid value }
          ⟨w3.send (.file { fileDocument with isPublic := .bool value }), w3.sendResult⟩

/-- The handler `FilesController.putPublish` (lines 106-118). -/
def putPublish (env : Env) (req : Request) (w : World) : Outcome := setPublic true env req w

/-- The handler `FilesController.putUnpublish` (lines 120-132). -/
def putUnpublish (env : Env) (req : Request) (w : World) : Outcome := setPublic false env req w

/-! ## `getFile` -/

/-- Lines 144-151 of `getFile`: whether the token resolves to the user that
`userId` names. The result is the truthiness of `owner`. -/
def requesterIsOwner (env : Env) (token userId : JsVal) (w : World) :
    World × Except JsError Bool :=
  if !token.truthy then (w, .ok false)
  else
    let key := "auth_" ++ token.interpolate
    let w1 := w.emit (.redisGet key)
    let redisToken := JsVal.ofOptStr (env.redis key)
    if !redisToken.truthy then (w1, .ok false)
    else
      match env.toObjectId redisToken with
      | none => (w1, .error .invalidObjectId)
      | some uid =>
        let w2 := w1.emit (.usersFindOne uid)
        match env.users.find? (fun u => u.id == uid) with
        | none => (w2, .ok false)
        | some user =>
          match (JsVal.oid user.id).toStr, userId.toStr with
          | some a, some b => (w2, .ok (a == b))
          | _, _ => (w2, .error .typeError)

/-- The value of `realPath` (line 156), with `size` the expression
`request.query.size || 0` (line 136). -/
def realPath (req : Request) (fileDocument : FileRecord) : JsVal :=
  let size := (JsVal.ofOptStr req.querySize).or (.num 0)
  let localPath := JsVal.ofOptStr fileDocument.localPath
  if size = .num 0 then localPath
  else .str (localPath.interpolate ++ "_" ++ size.interpolate)

/-- Lines 153-165 of `getFile`: the answer, once the document is found and
`owner` is computed. Reading a path that is not a string is an error, caught
like a missing file. -/
def getFileAnswer (env : Env) (req : Request) (fileDocument : FileRecord) (owner : Bool)
    (w2 : World) : Outcome :=
  if !fileDocument.isPublic.truthy && !owner then ⟨w2.fail 404 "Not found", w2.sendResult⟩
  else if fileDocument.type = .str "folder" then
    ⟨w2.fail 400 "A folder doesn't have content", w2.sendResult⟩
  else
    match realPath req fileDocument with
    | .str path =>
      let w3 := w2.emit (.readFile path)
      match w2.readDisk path with
      | some dataFile =>
        if w3.headersSent then ⟨w3.fail 404 "Not found", w3.sendResult⟩
        else ⟨w3.send (.bytes dataFile (env.contentType fileDocument.name)), .returned⟩
      | none => ⟨w3.fail 404 "Not found", w3.sendResult⟩
    | _ => ⟨w2.fail 404 "Not found", w2.sendResult⟩

/-- The handler `FilesController.getFile` (lines 134-166). -/
def getFile (env : Env) (req : Request) (w : World) : Outcome :=
  let idFile := req.idFile
  match env.toObjectId idFile with
  | none => ⟨w, .threw .invalidObjectId⟩
  | some fid =>
    let w1 := w.emit (.filesFindOne fid)
    match findById w.files fid with
    | none => ⟨w1.fail 404 "Not found", w1.sendResult⟩
    | some fileDocument =>
      let token := (JsVal.ofOptStr req.xToken).or .null
      match requesterIsOwner env token fileDocument.userId w1 with
      | (w2, .error e) => ⟨w2, .threw e⟩
      | (w2, .ok owner) => getFileAnswer env req fileDocument owner w2

/-! ## The operations as one family -/

/-- The six operations of the controller. -/
inductive Op where
  | postUpload
  | getShow
  | getIndex
  | putPublish
  | putUnpublish
  | getFile
deriving DecidableEq, Repr

/-- The handler of an operation. -/
def Op.run : Op → Env → Request → World → Outcome
  | .postUpload => FilesManager.postUpload
  | .getShow => FilesManager.getShow
  | .getIndex => FilesManager.getIndex
  | .putPublish => FilesManager.putPublish
  | .putUnpublish => FilesManager.putUnpublish
  | .getFile => FilesManager.getFile

/-! ## Vocabulary of the properties -/

/-- The identity the token store and the `users` collection give to the token
of a request, i.e. the lookups of lines 11-18 (and 142-148) without the
responses: `.ok none` for a missing or unknown token and for a user id with no
user, `.ok (some u)` for the user found, `.error` when `ObjectId` rejects the
stored user id. -/
def resolve (env : Env) (req : Request) : Except JsError (Option User) :=
  let token := (JsVal.ofOptStr req.xToken).or .null
  if !token.truthy then .ok none
  else
    let redisToken := JsVal.ofOptStr (env.redis ("auth_" ++ token.interpolate))
    if !redisToken.truthy then .ok none
    else
      match env.toObjectId redisToken with
      | none => .error .invalidObjectId
      | some uid => .ok (env.users.find? fun u => u.id == uid)

/-- The `_id` values of a collection are pairwise distinct. -/
def UniqueIds (files : List FileRecord) : Prop := (files.map fun r => r.id).Nodup

instance (files : List FileRecord) : Decidable (UniqueIds files) := by
  unfold UniqueIds; infer_instance

namespace Event

/-- Reads of the token store and of the `users` collection. -/
def isLookup : Event → Bool
  | redisGet _ => true
  | usersFindOne _ => true
  | _ => false

/-- Writes: to the `files` collection, to the disk, to the queue. -/
def isWrite : Event → Bool
  | filesInsertOne _ => true
  | filesUpdateOne _ _ => true
  | mkdir _ => true
  | writeFile _ => true
  | queueAdd _ => true
  | _ => false

/-- Reads of the disk. -/
def isDiskRead : Event → Bool
  | readFile _ => true
  | _ => false

end Event

/-- Append actions to the trace. -/
def World.log (w : World) (evs : List Event) : World := { w with trace := w.trace ++ evs }

/-! ## Sample data -/

namespace Sample

/-- The id of user A. -/
def idA : ObjectId := ⟨"5f1e7d35c7ba06511e683b21"⟩

/-- The id of user B. -/
def idB : ObjectId := ⟨"5f1e7d35c7ba06511e683b22"⟩

/-- The id of a stored document. -/
def idF : ObjectId := ⟨"5f1e8896c7ba06511e683b25"⟩

/-- An id that no document has. -/
def idNone : ObjectId := ⟨"5f1e8896c7ba06511e683b99"⟩

/-- Whether a character is a hexadecimal digit. -/
def isHexDigit (c : Char) : Bool :=
  c.isDigit || ('a' ≤ c && c ≤ 'f') || ('A' ≤ c && c ≤ 'F')

/-- The two hexadecimal digits of a byte. -/
def hexByte (n : Nat) : List Char := [Nat.digitChar (n / 16), Nat.digitChar (n % 16)]

/-- A sample `ObjectId` constructor, after the one of the driver: a string of
24 hexadecimal digits is the id it spells, a string of 12 one-byte characters
is the id made of these bytes, any other string and a boolean are rejected,
an `ObjectId` is itself, and a number or a missing value gives a new id. -/
def toObjectId : JsVal → Option ObjectId
  | .str s =>
    if s.data.length == 24 && s.data.all isHexDigit then
      some ⟨String.mk (s.data.map Char.toLower)⟩
    else if s.data.length == 12 && s.data.all (fun c => decide (c.toNat < 128)) then
      some ⟨String.mk (s.data.foldr (fun c acc => hexByte c.toNat ++ acc) [])⟩
    else none
  | .oid i => some i
  | .bool _ => none
  | _ => some ⟨"ffffffffffffffffffffffff"⟩

/-- Two users A and B, logged in with the tokens `tokenA` and `tokenB`. -/
def env : Env :=
  { redis := fun key =>
      if key = "auth_tokenA" then some idA.hex
      else if key = "auth_tokenB" then some idB.hex
      else none,
    users := [⟨idA⟩, ⟨idB⟩],
    toObjectId := toObjectId,
    contentType := fun _ => .str "text/plain; charset=utf-8",
    folderPath := none,
    uuid := "1b9d6bcd-bbfd-4b2d-9b5d-ab8dfbbd4bed",
    newId := ⟨"5f1e8896c7ba06511e683b26"⟩,
    fsWriteError := none,
    fromBase64 := fun _ => some [104, 101, 108, 108, 111] }

/-- A request with no token, no body and no parameter. -/
def bare : Request :=
  { xToken := none,
    body := { name := .undefined, type := .undefined, data := .undefined,
              isPublic := .undefined, parentId := .undefined },
    paramsId := none, queryParentId := none, queryPage := none, querySize := none }

/-- A private folder of user A at the root. -/
def folder : FileRecord :=
  { id := idF, userId := .oid idA, name := .str "Photos", type := .str "folder",
    isPublic := .bool false, parentId := .num 0, localPath := none }

/-- A private file of user A at the root, stored at `/tmp/files_manager/blob`. -/
def file : FileRecord :=
  { id := idF, userId := .oid idA, name := .str "notes.txt", type := .str "file",
    isPublic := .bool false, parentId := .num 0,
    localPath := some "/tmp/files_manager/blob" }

/-- The disk holding the bytes of `file`. -/
def disk : List (String × List Nat) := [("/tmp/files_manager/blob", [104, 101, 108, 108, 111])]

/-- A request for the document `idF`, with the given token. -/
def askFile (token : Option String) : Request :=
  { xToken := token, body := bare.body, paramsId := some idF.hex, queryParentId := none,
    queryPage := none, querySize := none }

/-- A listing request with the given token and query parameters. -/
def list (token parentId page : Option String) : Request :=
  { xToken := token, body := bare.body, paramsId := none, queryParentId := parentId,
    queryPage := page, querySize := none }

/-- An upload request with the given token and body. -/
def upload (token : Option String) (body : UploadBody) : Request :=
  { xToken := token, body := body, paramsId := none, queryParentId := none,
    queryPage := none, querySize := none }

/-- The body `{ name: "Photos", type: "folder" }`. -/
def newFolder : UploadBody :=
  { name := .str "Photos", type := .str "folder", data := .undefined,
    isPublic := .undefined, parentId := .undefined }

/-- The body `{ name: "cat.png", type: "image", parentId }`, without `data`. -/
def imageNoData (parentId : JsVal) : UploadBody :=
  { name := .str "cat.png", type := .str "image", data := .undefined,
    isPublic := .undefined, parentId := parentId }

/-- The body `{ name: "cat.png", type: "image", data: "aGVsbG8=", parentId }`. -/
def image (parentId : JsVal) : UploadBody :=
  { name := .str "cat.png", type := .str "image", data := .str "aGVsbG8=",
    isPublic := .undefined, parentId := parentId }

/-- A request on the document `id` (show, publish, unpublish), with the given token. -/
def onFile (token : Option String) (id : ObjectId) : Request :=
  { xToken := token, body := bare.body, paramsId := some id.hex, queryParentId := none,
    queryPage := none, querySize := none }

/-- A private file of user A inside the folder `idF`. -/
def child : FileRecord :=
  { id := idNone, userId := .oid idA, name := .str "cat.png", type := .str "image",
    isPublic := .bool false, parentId := .str idF.hex,
    localPath := some "/tmp/files_manager/blob" }

end Sample

/-- The world `w2` comes from `w` without any write: same `files` collection,
same disk, same queue, and the actions added to the trace are not writes. -/
def NoWrite (w w2 : World) : Prop :=
  w2.files = w.files ∧ w2.disk = w.disk ∧ w2.queue = w.queue ∧
    ∃ evs, w2.trace = w.trace ++ evs ∧ ∀ x ∈ evs, x.isWrite = false

/-! ## Lemmas on the world -/

section WorldLemmas

variable (w : World) (e : Event) (evs : List Event) (code : Nat) (message : String) (body : Body)

@[simp] theorem World.emit_files : (w.emit e).files = w.files := rfl
@[simp] theorem World.emit_disk : (w.emit e).disk = w.disk := rfl
@[simp] theorem World.emit_queue : (w.emit e).queue = w.queue := rfl
@[simp] theorem World.emit_statusCode : (w.emit e).statusCode = w.statusCode := rfl
@[simp] theorem World.emit_trace : (w.emit e).trace = w.trace ++ [e] := rfl
@[simp] theorem World.log_files : (w.log evs).files = w.files := rfl
@[simp] theorem World.log_disk : (w.log evs).disk = w.disk := rfl
@[simp] theorem World.log_queue : (w.log evs).queue = w.queue := rfl
@[simp] theorem World.log_statusCode : (w.log evs).statusCode = w.statusCode := rfl
@[simp] theorem World.log_trace : (w.log evs).trace = w.trace ++ evs := rfl
@[simp] theorem World.fail_files : (w.fail code message).files = w.files := rfl
@[simp] theorem World.fail_disk : (w.fail code message).disk = w.disk := rfl
@[simp] theorem World.fail_queue : (w.fail code message).queue = w.queue := rfl
@[simp] theorem World.fail_statusCode : (w.fail code message).statusCode = code := rfl
@[simp] theorem World.fail_trace :
    (w.fail code message).trace = w.trace ++ [.send code (.error message)] := rfl
@[simp] theorem World.send_files : (w.send body).files = w.files := rfl
@[simp] theorem World.send_disk : (w.send body).disk = w.disk := rfl
@[simp] theorem World.send_queue : (w.send body).queue = w.queue := rfl
@[simp] theorem World.send_statusCode : (w.send body).statusCode = w.statusCode := rfl
@[simp] theorem World.send_trace :
    (w.send body).trace = w.trace ++ [.send w.statusCode body] := rfl
@[simp] theorem World.readDisk_log (path : String) :
    (w.log evs).readDisk path = w.readDisk path := rfl

theorem World.emit_eq_log : w.emit e = w.log [e] := rfl

@[simp] theorem World.log_log (evs2 : List Event) :
    (w.log evs).log evs2 = w.log (evs ++ evs2) := by
  simp [World.log, List.append_assoc]

/-- The responses of a trace made of lookups only. -/
theorem sentOf_lookups (h : ∀ x ∈ evs, x.isLookup = true) : sentOf evs = [] := by
  induction evs with
  | nil => rfl
  | cons x xs ih =>
    have hx := h x (List.mem_cons_self _ _)
    have hxs : ∀ y ∈ xs, y.isLookup = true := fun y hy => h y (List.mem_cons_of_mem _ hy)
    cases x <;> simp_all [Event.isLookup, sentOf]

theorem sentOf_append (evs2 : List Event) : sentOf (evs ++ evs2) = sentOf evs ++ sentOf evs2 := by
  simp [sentOf]

@[simp] theorem World.sent_init (files : List FileRecord) (disk : List (String × List Nat))
    (queue : List Job) : (World.init files disk queue).sent = [] := rfl

theorem World.sent_log_lookups (h : ∀ x ∈ evs, x.isLookup = true) :
    (w.log evs).sent = w.sent := by
  simp [World.sent, sentOf_append, sentOf_lookups evs h]

@[simp] theorem World.sent_fail : (w.fail code message).sent = w.sent ++ [(code, .error message)] := by
  simp [World.sent, sentOf_append, sentOf]

@[simp] theorem World.sent_send : (w.send body).sent = w.sent ++ [(w.statusCode, body)] := by
  simp [World.sent, sentOf_append, sentOf]

@[simp] theorem World.sent_findOne (id : ObjectId) :
    (w.emit (.filesFindOne id)).sent = w.sent := by
  simp [World.sent, sentOf_append, sentOf]

@[simp] theorem World.sent_aggregate (p : JsVal) (k : JsNum) :
    (w.emit (.filesAggregate p k)).sent = w.sent := by
  simp [World.sent, sentOf_append, sentOf]

@[simp] theorem World.sent_readFile (path : String) :
    (w.emit (.readFile path)).sent = w.sent := by
  simp [World.sent, sentOf_append, sentOf]

/-- A trace made of lookups holds no read of the disk. -/
theorem noDiskRead_of_lookups (h : ∀ x ∈ evs, x.isLookup = true) :
    ∀ x ∈ evs, x.isDiskRead = false := by
  intro x hx
  have := h x hx
  cases x <;> simp_all [Event.isLookup, Event.isDiskRead]

end WorldLemmas

/-! ## Lemmas on `authenticate` -/

/-- The three ways `authenticate` ends, read off `resolve`: it performs
lookups only, then returns the user, or answers 401, or throws. -/
theorem authenticate_spec (env : Env) (req : Request) (w : World) :
    ∃ evs, (∀ x ∈ evs, x.isLookup = true) ∧
      ((∃ u, resolve env req = .ok (some u) ∧
          authenticate env req w = (w.log evs, .ok (.user u))) ∨
       (resolve env req = .ok none ∧ authenticate env req w = unauthorized (w.log evs)) ∨
       (∃ err, resolve env req = .error err ∧
          authenticate env req w = (w.log evs, .error err))) := by
  unfold authenticate resolve
  by_cases h1 : ((JsVal.ofOptStr req.xToken).or .null).truthy = true
  · by_cases h2 : (JsVal.ofOptStr
        (env.redis ("auth_" ++ ((JsVal.ofOptStr req.xToken).or .null).interpolate))).truthy = true
    · cases h3 : env.toObjectId (JsVal.ofOptStr
          (env.redis ("auth_" ++ ((JsVal.ofOptStr req.xToken).or .null).interpolate))) with
      | none =>
        refine ⟨[.redisGet ("auth_" ++ ((JsVal.ofOptStr req.xToken).or .null).interpolate)],
          by simp [Event.isLookup], Or.inr (Or.inr ⟨.invalidObjectId, ?_, ?_⟩)⟩
        · simp [h1, h2, h3]
        · simp [h1, h2, h3, World.emit_eq_log]
      | some uid =>
        cases h4 : env.users.find? (fun u => u.id == uid) with
        | none =>
          refine ⟨[.redisGet ("auth_" ++ ((JsVal.ofOptStr req.xToken).or .null).interpolate),
            .usersFindOne uid], by simp [Event.isLookup], Or.inr (Or.inl ⟨?_, ?_⟩)⟩
          · simp [h1, h2, h3, h4]
          · simp [h1, h2, h3, h4, World.emit_eq_log]
        | some u =>
          refine ⟨[.redisGet ("auth_" ++ ((JsVal.ofOptStr req.xToken).or .null).interpolate),
            .usersFindOne uid], by simp [Event.isLookup], Or.inl ⟨u, ?_, ?_⟩⟩
          · simp [h1, h2, h3, h4]
          · simp [h1, h2, h3, h4, World.emit_eq_log]
    · refine ⟨[.redisGet ("auth_" ++ ((JsVal.ofOptStr req.xToken).or .null).interpolate)],
        by simp [Event.isLookup], Or.inr (Or.inl ⟨?_, ?_⟩)⟩
      · simp [h1, h2]
      · simp [h1, h2, World.emit_eq_log]
  · refine ⟨[], by simp, Or.inr (Or.inl ⟨?_, ?_⟩)⟩
    · simp [h1]
    · simp [h1, World.log]

/-! ## Lemmas on the `files` collection -/

theorem mongoEq_oid (i : ObjectId) (v : JsVal) : mongoEq (.oid i) v = true ↔ v = .oid i := by
  unfold mongoEq
  exact ⟨fun h => (beq_iff_eq.mp h).symm, fun h => beq_iff_eq.mpr h.symm⟩

theorem mongoEq_undefined_oid (i : ObjectId) : mongoEq .undefined (.oid i) = false := by
  rfl

theorem UniqueIds.tail {x : FileRecord} {xs : List FileRecord} (h : UniqueIds (x :: xs)) :
    UniqueIds xs := by
  unfold UniqueIds at h ⊢
  exact (List.nodup_cons.mp h).2

theorem UniqueIds.head_ne {x r : FileRecord} {xs : List FileRecord} (h : UniqueIds (x :: xs))
    (hr : r ∈ xs) : x.id ≠ r.id := by
  unfold UniqueIds at h
  intro hx
  apply (List.nodup_cons.mp h).1
  show x.id ∈ _
  rw [hx]
  exact List.mem_map_of_mem _ hr

theorem findById_of_mem {files : List FileRecord} {r : FileRecord} (hu : UniqueIds files)
    (hr : r ∈ files) : findById files r.id = some r := by
  induction files with
  | nil => cases hr
  | cons x xs ih =>
    rcases List.mem_cons.mp hr with rfl | hxs
    · simp [findById]
    · have hne := hu.head_ne hxs
      have := ih hu.tail hxs
      simp only [findById] at this ⊢
      rw [List.find?_cons_of_neg _ (by simpa using hne)]
      exact this

theorem findById_none {files : List FileRecord} {id : ObjectId}
    (h : ∀ r ∈ files, r.id ≠ id) : findById files id = none := by
  simp only [findById, List.find?_eq_none]
  intro r hr
  simpa using h r hr

theorem findOwned_of_mem {files : List FileRecord} {r : FileRecord} (hu : UniqueIds files)
    (hr : r ∈ files) (q : JsVal) :
    findOwned files r.id q = if mongoEq q r.userId then some r else none := by
  induction files with
  | nil => cases hr
  | cons x xs ih =>
    rcases List.mem_cons.mp hr with rfl | hxs
    · by_cases hq : mongoEq q r.userId = true
      · simp [findOwned, hq]
      · have hnone : ∀ y ∈ xs, ¬ ((y.id == r.id && mongoEq q y.userId) = true) := by
          intro y hy hy2
          have : r.id ≠ y.id := hu.head_ne hy
          simp only [Bool.and_eq_true, beq_iff_eq] at hy2
          exact this hy2.1.symm
        simp only [findOwned, hq, Bool.false_eq_true, if_false]
        rw [List.find?_cons_of_neg _ (by simp [hq])]
        exact List.find?_eq_none.mpr hnone
    · have hne := hu.head_ne hxs
      have := ih hu.tail hxs
      simp only [findOwned] at this ⊢
      rw [List.find?_cons_of_neg _ (by simp [hne])]
      exact this

theorem findOwned_none_of_absent {files : List FileRecord} {id : ObjectId} (q : JsVal)
    (h : ∀ r ∈ files, r.id ≠ id) : findOwned files id q = none := by
  simp only [findOwned, List.find?_eq_none]
  intro r hr
  simp [h r hr]

theorem findOwned_some {files : List FileRecord} {id : ObjectId} {q : JsVal} {d : FileRecord}
    (h : findOwned files id q = some d) : d ∈ files ∧ d.id = id ∧ mongoEq q d.userId = true := by
  unfold findOwned at h
  have h1 := List.mem_of_find?_eq_some h
  have h2 := List.find?_some h
  simp only [Bool.and_eq_true, beq_iff_eq] at h2
  exact ⟨h1, h2.1, h2.2⟩

/-- What `updateOne` keeps: every document stays, with all its fields but
`isPublic`, and `isPublic` changes on the document with the given `_id` only. -/
theorem updateOne_keeps (files : List FileRecord) (id : ObjectId) (v : Bool) :
    ∀ r ∈ files, ∃ r2 ∈ updateOne files id v,
      r2.id = r.id ∧ r2.userId = r.userId ∧ r2.name = r.name ∧ r2.type = r.type ∧
      r2.parentId = r.parentId ∧ r2.localPath = r.localPath ∧
      (r2.isPublic ≠ r.isPublic → r.id = id) := by
  induction files with
  | nil => intro r hr; cases hr
  | cons x xs ih =>
    intro r hr
    by_cases hx : x.id = id
    · rcases List.mem_cons.mp hr with rfl | hxs
      · exact ⟨{ r with isPublic := .bool v }, by simp [updateOne, hx], rfl, rfl, rfl, rfl, rfl,
          rfl, fun _ => hx⟩
      · exact ⟨r, by simp [updateOne, hx, hxs], rfl, rfl, rfl, rfl, rfl, rfl,
          fun h => absurd rfl h⟩
    · rcases List.mem_cons.mp hr with rfl | hxs
      · exact ⟨r, by simp [updateOne, hx], rfl, rfl, rfl, rfl, rfl, rfl, fun h => absurd rfl h⟩
      · obtain ⟨r2, hr2, hrest⟩ := ih r hxs
        exact ⟨r2, by simp [updateOne, hx, hr2], hrest⟩

/-! ## Handlers that write nothing -/

theorem NoWrite.refl (w : World) : NoWrite w w :=
  ⟨rfl, rfl, rfl, [], by simp, by simp⟩

theorem NoWrite.emit {w w2 : World} (h : NoWrite w w2) {e : Event} (he : e.isWrite = false) :
    NoWrite w (w2.emit e) := by
  obtain ⟨h1, h2, h3, evs, h4, h5⟩ := h
  refine ⟨h1, h2, h3, evs ++ [e], by simp [h4], ?_⟩
  intro x hx
  rcases List.mem_append.mp hx with hx | hx
  · exact h5 x hx
  · simp only [List.mem_singleton] at hx
    exact hx ▸ he

theorem NoWrite.fail {w w2 : World} (h : NoWrite w w2) (code : Nat) (message : String) :
    NoWrite w (w2.fail code message) := by
  obtain ⟨h1, h2, h3, evs, h4, h5⟩ := h
  refine ⟨h1, h2, h3, evs ++ [.send code (.error message)], by simp [h4], ?_⟩
  intro x hx
  rcases List.mem_append.mp hx with hx | hx
  · exact h5 x hx
  · simp only [List.mem_singleton] at hx
    exact hx ▸ rfl

theorem NoWrite.send {w w2 : World} (h : NoWrite w w2) (body : Body) :
    NoWrite w (w2.send body) :=
  h.emit rfl

theorem NoWrite.findOne {w w2 : World} (h : NoWrite w w2) (id : ObjectId) :
    NoWrite w (w2.emit (.filesFindOne id)) :=
  h.emit rfl

theorem NoWrite.aggregate {w w2 : World} (h : NoWrite w w2) (p : JsVal) (k : JsNum) :
    NoWrite w (w2.emit (.filesAggregate p k)) :=
  h.emit rfl

theorem NoWrite.readFile {w w2 : World} (h : NoWrite w w2) (path : String) :
    NoWrite w (w2.emit (.readFile path)) :=
  h.emit rfl

theorem NoWrite.lookups (w : World) {evs : List Event} (h : ∀ x ∈ evs, x.isLookup = true) :
    NoWrite w (w.log evs) := by
  refine ⟨rfl, rfl, rfl, evs, rfl, ?_⟩
  intro x hx
  have := h x hx
  cases x <;> simp_all [Event.isLookup, Event.isWrite]

theorem unauthorized_cases (w : World) :
    unauthorized w = (w.fail 401 "Unauthorized", .ok .response) ∨
    unauthorized w = (w.fail 401 "Unauthorized", .error .headersSent) := by
  unfold unauthorized
  cases w.headersSent
  · exact Or.inl rfl
  · exact Or.inr rfl

/-- Unauthorized in a world where no response has been sent. -/
theorem unauthorized_fresh {w : World} (h : w.sent = []) :
    unauthorized w = (w.fail 401 "Unauthorized", .ok .response) := by
  simp [unauthorized, World.headersSent, h]

/-- A `return response.send(...)` in a world where no response has been sent
returns. -/
theorem World.sendResult_fresh {w : World} (h : w.sent = []) : w.sendResult = .returned := by
  simp [World.sendResult, World.headersSent, h]

/-- Whatever the request, `authenticate` writes nothing. -/
theorem authenticate_shape (env : Env) (req : Request) (w : World) :
    ∃ w1, NoWrite w w1 ∧
      ((∃ user, authenticate env req w = (w1, .ok user)) ∨
       (∃ err, authenticate env req w = (w1, .error err))) := by
  obtain ⟨evs, hev, h⟩ := authenticate_spec env req w
  have hl := NoWrite.lookups w hev
  rcases h with ⟨u, -, ha⟩ | ⟨-, ha⟩ | ⟨err, -, ha⟩
  · exact ⟨_, hl, Or.inl ⟨_, ha⟩⟩
  · rcases unauthorized_cases (w.log evs) with hu | hu
    · exact ⟨_, hl.fail _ _, Or.inl ⟨_, ha.trans hu⟩⟩
    · exact ⟨_, hl.fail _ _, Or.inr ⟨_, ha.trans hu⟩⟩
  · exact ⟨_, hl, Or.inr ⟨_, ha⟩⟩

/-- The identifier `fileIsPublic` read on line 45 is bound nowhere, so
building the document throws and lines 49-75 are never reached. -/
theorem postUploadStore_throws (env : Env) (user : AuthResult)
    (fileName fileType fileData isPublic parentId fileParentId : JsVal) (w : World) :
    postUploadStore env user fileName fileType fileData isPublic parentId fileParentId w
      = ⟨w, .threw (.referenceError "fileIsPublic")⟩ := by
  rfl

/-- Whatever the request, `postUpload` writes nothing. -/
theorem postUpload_noWrite (env : Env) (req : Request) (w : World) :
    NoWrite w (postUpload env req w).world := by
  obtain ⟨w1, hl, ⟨user, ha⟩ | ⟨err, ha⟩⟩ := authenticate_shape env req w
  · cases user <;>
      simp only [postUpload, ha, postUploadStore_throws, AuthResult.truthy] <;>
      repeat' split
    all_goals try dsimp only
    all_goals repeat (first
      | exact hl
      | apply NoWrite.fail
      | apply NoWrite.findOne)
  · simp only [postUpload, ha]
    exact hl

/-- Whatever the request, `getShow` writes nothing. -/
theorem getShow_noWrite (env : Env) (req : Request) (w : World) :
    NoWrite w (getShow env req w).world := by
  obtain ⟨w1, hl, ⟨user, ha⟩ | ⟨err, ha⟩⟩ := authenticate_shape env req w
  · cases user <;>
      simp only [getShow, ha, AuthResult.truthy] <;>
      repeat' split
    all_goals try dsimp only
    all_goals repeat (first
      | exact hl
      | apply NoWrite.fail
      | apply NoWrite.findOne
      | apply NoWrite.send)
  · simp only [getShow, ha]
    exact hl

/-- Whatever the request, `getIndex` writes nothing. -/
theorem getIndex_noWrite (env : Env) (req : Request) (w : World) :
    NoWrite w (getIndex env req w).world := by
  obtain ⟨w1, hl, ⟨user, ha⟩ | ⟨err, ha⟩⟩ := authenticate_shape env req w
  · cases user <;>
      simp only [getIndex, ha, AuthResult.truthy] <;>
      repeat' split
    all_goals try dsimp only
    all_goals repeat (first
      | exact hl
      | apply NoWrite.fail
      | apply NoWrite.aggregate
      | apply NoWrite.send)
  · simp only [getIndex, ha]
    exact hl

/-! ## Lemmas on `getFile` -/

theorem ObjectId.hex_beq (a b : ObjectId) : (a.hex == b.hex) = (a == b) := by
  cases a; cases b; simp

/-- The lookups of lines 144-151 give the same identity as `resolve`, and
`owner` holds exactly when that identity is the user `o`. -/
theorem requesterIsOwner_of_resolve (env : Env) (req : Request) (w : World) (o : ObjectId)
    {who : Option User} (hres : resolve env req = .ok who) :
    ∃ evs, (∀ x ∈ evs, x.isLookup = true) ∧
      requesterIsOwner env ((JsVal.ofOptStr req.xToken).or .null) (.oid o) w
        = (w.log evs, .ok (who.map (fun u => u.id) == some o)) := by
  unfold resolve at hres
  unfold requesterIsOwner
  by_cases h1 : ((JsVal.ofOptStr req.xToken).or .null).truthy = true
  · by_cases h2 : (JsVal.ofOptStr
        (env.redis ("auth_" ++ ((JsVal.ofOptStr req.xToken).or .null).interpolate))).truthy = true
    · cases h3 : env.toObjectId (JsVal.ofOptStr
          (env.redis ("auth_" ++ ((JsVal.ofOptStr req.xToken).or .null).interpolate))) with
      | none => simp [h1, h2, h3] at hres
      | some uid =>
        simp only [h1, h2, h3, Bool.not_true, Bool.false_eq_true, if_false,
          Except.ok.injEq] at hres
        refine ⟨[.redisGet ("auth_" ++ ((JsVal.ofOptStr req.xToken).or .null).interpolate),
          .usersFindOne uid], by simp [Event.isLookup], ?_⟩
        cases h4 : env.users.find? (fun u => u.id == uid) with
        | none =>
          rw [h4] at hres
          subst hres
          simp [h1, h2, h3, h4, World.emit_eq_log]
        | some u =>
          rw [h4] at hres
          subst hres
          simp [h1, h2, h3, h4, World.emit_eq_log, JsVal.toStr, ObjectId.hex_beq]
    · simp only [h1, h2, Bool.not_true, Bool.false_eq_true, if_false, Bool.not_false,
        if_true, Except.ok.injEq] at hres
      subst hres
      exact ⟨[.redisGet ("auth_" ++ ((JsVal.ofOptStr req.xToken).or .null).interpolate)],
        by simp [Event.isLookup], by simp [h1, h2, World.emit_eq_log]⟩
  · simp only [h1, Bool.not_false, if_true, Except.ok.injEq] at hres
    subst hres
    exact ⟨[], by simp, by simp [h1, World.log]⟩

/-- On a request for the `_id` of a stored document that has an owner, when
the token store holds well-formed user ids, `getFile` looks the document up,
resolves the requester and answers. -/
theorem getFile_of_resolve (env : Env) (req : Request) (w : World) {r : FileRecord}
    {o : ObjectId} {who : Option User} (hu : UniqueIds w.files) (hr : r ∈ w.files)
    (hid : env.toObjectId req.idFile = some r.id) (ho : r.userId = .oid o)
    (hres : resolve env req = .ok who) :
    ∃ evs, (∀ x ∈ evs, x.isLookup = true) ∧
      getFile env req w
        = getFileAnswer env req r (who.map (fun u => u.id) == some o)
            ((w.emit (.filesFindOne r.id)).log evs) := by
  obtain ⟨evs, hev, hrio⟩ :=
    requesterIsOwner_of_resolve env req (w.emit (.filesFindOne r.id)) o hres
  refine ⟨evs, hev, ?_⟩
  simp only [getFile, hid, findById_of_mem hu hr, ho, hrio]

theorem requesterIsOwner_of_resolve_error (env : Env) (req : Request) (w : World)
    (userId : JsVal) {err : JsError} (hres : resolve env req = .error err) :
    ∃ evs, (∀ x ∈ evs, x.isLookup = true) ∧
      requesterIsOwner env ((JsVal.ofOptStr req.xToken).or .null) userId w
        = (w.log evs, .error err) := by
  unfold resolve at hres
  unfold requesterIsOwner
  by_cases h1 : ((JsVal.ofOptStr req.xToken).or .null).truthy = true
  · by_cases h2 : (JsVal.ofOptStr
        (env.redis ("auth_" ++ ((JsVal.ofOptStr req.xToken).or .null).interpolate))).truthy = true
    · cases h3 : env.toObjectId (JsVal.ofOptStr
          (env.redis ("auth_" ++ ((JsVal.ofOptStr req.xToken).or .null).interpolate))) with
      | none =>
        simp only [h1, h2, h3, Bool.not_true, Bool.false_eq_true, if_false,
          Except.error.injEq] at hres
        subst hres
        exact ⟨[.redisGet ("auth_" ++ ((JsVal.ofOptStr req.xToken).or .null).interpolate)],
          by simp [Event.isLookup], by simp [h1, h2, h3, World.emit_eq_log]⟩
      | some uid => simp [h1, h2, h3] at hres
    · simp [h1, h2] at hres
  · simp [h1] at hres

/-- The answer to a non-owner asking for a private document. -/
theorem getFileAnswer_private (env : Env) (req : Request) (r : FileRecord) (w : World)
    (hpriv : r.isPublic.truthy = false) :
    getFileAnswer env req r false w = ⟨w.fail 404 "Not found", w.sendResult⟩ := by
  simp [getFileAnswer, hpriv]

/-- The answer for a folder that the requester may see. -/
theorem getFileAnswer_folder (env : Env) (req : Request) (r : FileRecord) (owner : Bool)
    (w : World) (hsee : r.isPublic.truthy = true ∨ owner = true) (hfolder : r.type = .str "folder") :
    getFileAnswer env req r owner w
      = ⟨w.fail 400 "A folder doesn't have content", w.sendResult⟩ := by
  rcases hsee with h | h <;> simp [getFileAnswer, h, hfolder]

/-! ## The claims on `getFile` -/

/-- C2. A private record is served to its owner only: on a `getFile` request
for the id of a stored record whose `isPublic` is false, bytes are sent only
if the token of the request resolves to an existing user whose id is the
`userId` of the record; for any other requester (no token, unknown token,
token of no user, another user) the answer is 404 Not found and the disk is
not read. -/
theorem getFile_private_owner_only (env : Env) (req : Request) (files : List FileRecord)
    (disk : List (String × List Nat)) (queue : List Job) (r : FileRecord) (o : ObjectId)
    (hu : UniqueIds files) (hr : r ∈ files) (hid : env.toObjectId req.idFile = some r.id)
    (ho : r.userId = .oid o) (hpriv : r.isPublic.truthy = false) :
    ((∃ status data contentType, (status, Body.bytes data contentType)
          ∈ (getFile env req (World.init files disk queue)).world.sent) →
        ∃ u, resolve env req = .ok (some u) ∧ u.id = o) ∧
    (∀ who, resolve env req = .ok who → (∀ u, who = some u → u.id ≠ o) →
        (getFile env req (World.init files disk queue)).world.sent
            = [(404, .error "Not found")] ∧
        (getFile env req (World.init files disk queue)).completion = .returned ∧
        ∀ x ∈ (getFile env req (World.init files disk queue)).world.trace,
          x.isDiskRead = false) := by
  have hother : ∀ who, resolve env req = .ok who → (∀ u, who = some u → u.id ≠ o) →
      ∃ evs, (∀ x ∈ evs, x.isLookup = true) ∧
        getFile env req (World.init files disk queue)
          = ⟨(((World.init files disk queue).emit (.filesFindOne r.id)).log evs).fail 404
              "Not found", .returned⟩ := by
    intro who hres hne
    obtain ⟨evs, hev, hget⟩ :=
      getFile_of_resolve env req (World.init files disk queue) hu hr hid ho hres
    refine ⟨evs, hev, ?_⟩
    have hfalse : (who.map (fun u => u.id) == some o) = false := by
      cases who with
      | none => rfl
      | some u => simpa using hne u rfl
    rw [hget, hfalse, getFileAnswer_private _ _ _ _ hpriv,
      World.sendResult_fresh (by simp [World.sent_log_lookups _ evs hev])]
  constructor
  · rintro ⟨status, data, contentType, hsent⟩
    cases hres : resolve env req with
    | error err =>
      obtain ⟨evs, hev, hrio⟩ := requesterIsOwner_of_resolve_error env req
        ((World.init files disk queue).emit (.filesFindOne r.id)) (.oid o) hres
      have hget : getFile env req (World.init files disk queue)
          = ⟨((World.init files disk queue).emit (.filesFindOne r.id)).log evs, .threw err⟩ := by
        have hf : (World.init files disk queue).files = files := rfl
        simp only [getFile, hid, hf, findById_of_mem hu hr, ho, hrio]
      rw [hget] at hsent
      simp [World.sent_log_lookups _ evs hev] at hsent
    | ok who =>
      by_cases hown : ∃ u, who = some u ∧ u.id = o
      · obtain ⟨u, hwho, huid⟩ := hown
        exact ⟨u, by rw [hwho], huid⟩
      · exfalso
        obtain ⟨evs, hev, hget⟩ := hother who hres (fun u hwho huid => hown ⟨u, hwho, huid⟩)
        rw [hget] at hsent
        simp [World.sent_log_lookups _ evs hev] at hsent
  · intro who hres hne
    obtain ⟨evs, hev, hget⟩ := hother who hres hne
    rw [hget]
    refine ⟨?_, rfl, ?_⟩
    · simp [World.sent_log_lookups _ evs hev]
    · intro x hx
      simp only [World.fail_trace, World.log_trace, World.emit_trace, World.init,
        List.nil_append, List.mem_append, List.mem_singleton] at hx
      rcases hx with (rfl | hx) | rfl
      · rfl
      · exact noDiskRead_of_lookups evs hev x hx
      · rfl

/-- C2, on sample data: user B asks for a private file of user A, and gets
404 without the disk being read. -/
theorem getFile_private_owner_only_witness :
    (getFile Sample.env (Sample.askFile (some "tokenB"))
        (World.init [Sample.file] Sample.disk [])).world.sent
      = [(404, .error "Not found")] ∧
    (getFile Sample.env (Sample.askFile (some "tokenB"))
        (World.init [Sample.file] Sample.disk [])).completion = .returned ∧
    ∀ x ∈ (getFile Sample.env (Sample.askFile (some "tokenB"))
        (World.init [Sample.file] Sample.disk [])).world.trace, x.isDiskRead = false :=
  (getFile_private_owner_only Sample.env (Sample.askFile (some "tokenB"))
    [Sample.file] Sample.disk [] Sample.file Sample.idA (by decide) (by decide) (by decide)
    (by decide) (by decide)).2 (some ⟨Sample.idB⟩) (by rfl)
    (by intro u h; cases h; decide)

/-- C3, as stated, fails: an anonymous `getFile` request for the id of a
private folder is answered 404 Not found, not 400. -/
theorem getFile_private_folder_anonymous :
    Sample.folder.type = .str "folder" ∧
    (getFile Sample.env (Sample.askFile none)
        (World.init [Sample.folder] [] [])).world.sent = [(404, .error "Not found")] ∧
    (getFile Sample.env (Sample.askFile none)
        (World.init [Sample.folder] [] [])).world.sent
      ≠ [(400, .error "A folder doesn't have content")] := by
  decide

/-- C3, amended. On a `getFile` request for the id of a stored folder: when
the folder is public or the requester is its owner, the answer is 400
"A folder doesn't have content"; when the folder is private and the requester
is not its owner (another user or nobody), the answer is 404 Not found. -/
theorem getFile_folder (env : Env) (req : Request) (files : List FileRecord)
    (disk : List (String × List Nat)) (queue : List Job) (r : FileRecord) (o : ObjectId)
    (who : Option User) (hu : UniqueIds files) (hr : r ∈ files)
    (hid : env.toObjectId req.idFile = some r.id) (ho : r.userId = .oid o)
    (hfolder : r.type = .str "folder") (hres : resolve env req = .ok who) :
    ((r.isPublic.truthy = true ∨ ∃ u, who = some u ∧ u.id = o) →
        (getFile env req (World.init files disk queue)).world.sent
            = [(400, .error "A folder doesn't have content")] ∧
        (getFile env req (World.init files disk queue)).completion = .returned) ∧
    (r.isPublic.truthy = false → (∀ u, who = some u → u.id ≠ o) →
        (getFile env req (World.init files disk queue)).world.sent
            = [(404, .error "Not found")] ∧
        (getFile env req (World.init files disk queue)).completion = .returned) := by
  obtain ⟨evs, hev, hget⟩ :=
    getFile_of_resolve env req (World.init files disk queue) hu hr hid ho hres
  rw [hget]
  constructor
  · intro hsee
    have hsee2 : r.isPublic.truthy = true ∨ (who.map (fun u => u.id) == some o) = true := by
      rcases hsee with h | ⟨u, hwho, huid⟩
      · exact Or.inl h
      · exact Or.inr (by simp [hwho, huid])
    rw [getFileAnswer_folder _ _ _ _ _ hsee2 hfolder]
    exact ⟨by simp [World.sent_log_lookups _ evs hev],
      World.sendResult_fresh (by simp [World.sent_log_lookups _ evs hev])⟩
  · intro hpriv hne
    have hfalse : (who.map (fun u => u.id) == some o) = false := by
      cases who with
      | none => rfl
      | some u => simpa using hne u rfl
    rw [hfalse, getFileAnswer_private _ _ _ _ hpriv]
    exact ⟨by simp [World.sent_log_lookups _ evs hev],
      World.sendResult_fresh (by simp [World.sent_log_lookups _ evs hev])⟩

/-- C3, amended, on sample data: the owner asks for the content of a private
folder, and gets 400. -/
theorem getFile_folder_witness :
    (getFile Sample.env (Sample.askFile (some "tokenA"))
        (World.init [Sample.folder] [] [])).world.sent
      = [(400, .error "A folder doesn't have content")] ∧
    (getFile Sample.env (Sample.askFile (some "tokenA"))
        (World.init [Sample.folder] [] [])).completion = .returned :=
  (getFile_folder Sample.env (Sample.askFile (some "tokenA")) [Sample.folder] [] []
    Sample.folder Sample.idA (some ⟨Sample.idA⟩) (by decide) (by decide) (by decide)
    (by decide) (by decide) (by rfl)).1 (Or.inr ⟨⟨Sample.idA⟩, rfl, rfl⟩)

/-! ## The claims on authentication and on `postUpload` -/

/-- C1 fails on the code. A request without `X-Token` is answered 401 by
`authenticate`, which returns the response object; the test `!user` of the
handler does not stop on it. `getIndex` goes on to query the `files`
collection and to call `send` a second time; `getShow` goes on to look the
document up and to call `send` a second time. -/
theorem unauthorized_request_goes_on :
    (getIndex Sample.env (Sample.list none none none)
        (World.init [Sample.folder] [] [])).world.trace
      = [.send 401 (.error "Unauthorized"), .filesAggregate (.num 0) 0,
         .send 401 (.files [Sample.folder])] ∧
    (getShow Sample.env (Sample.askFile none)
        (World.init [Sample.folder] [] [])).world.trace
      = [.send 401 (.error "Unauthorized"), .filesFindOne Sample.idF,
         .send 404 (.error "Not found")] := by
  decide

/-- C4 fails on the code. An authenticated upload of a folder named "Photos"
at the root throws a `ReferenceError` on the unbound identifier
`fileIsPublic`: nothing is inserted and no response is sent. -/
theorem postUpload_folder_throws :
    resolve Sample.env (Sample.upload (some "tokenA") Sample.newFolder)
      = .ok (some ⟨Sample.idA⟩) ∧
    (postUpload Sample.env (Sample.upload (some "tokenA") Sample.newFolder)
        (World.init [] [] [])).completion = .threw (.referenceError "fileIsPublic") ∧
    (postUpload Sample.env (Sample.upload (some "tokenA") Sample.newFolder)
        (World.init [] [] [])).world.files = [] ∧
    (postUpload Sample.env (Sample.upload (some "tokenA") Sample.newFolder)
        (World.init [] [] [])).world.sent = [] := by
  refine ⟨rfl, ?_, ?_, ?_⟩ <;> decide

/-- C8 fails on the code. With a root-level folder stored (its `parentId` is
the number 0), an authenticated listing without `parentId` returns it, and
the listing with `parentId=0` in the query, which filters on the string "0",
returns nothing. -/
theorem getIndex_root_as_string :
    Sample.folder.parentId = .num 0 ∧
    (getIndex Sample.env (Sample.list (some "tokenA") none none)
        (World.init [Sample.folder] [] [])).world.sent
      = [(200, .files [Sample.folder])] ∧
    (getIndex Sample.env (Sample.list (some "tokenA") (some "0") none)
        (World.init [Sample.folder] [] [])).world.sent
      = [(200, .files [])] := by
  decide

@[simp] theorem JsVal.truthy_folder : (JsVal.str "folder").truthy = true := rfl

@[simp] theorem JsVal.truthy_file : (JsVal.str "file").truthy = true := rfl

@[simp] theorem JsVal.truthy_image : (JsVal.str "image").truthy = true := rfl

/-- For a request that `resolve` gives to the user `u`, `authenticate` performs
its lookups and returns `u`. -/
theorem authenticate_of_resolve (env : Env) (req : Request) (w : World) {u : User}
    (hres : resolve env req = .ok (some u)) :
    ∃ evs, (∀ x ∈ evs, x.isLookup = true) ∧
      authenticate env req w = (w.log evs, .ok (.user u)) := by
  obtain ⟨evs, hev, h⟩ := authenticate_spec env req w
  rcases h with ⟨u2, h2, ha⟩ | ⟨h2, -⟩ | ⟨err, h2, -⟩
  · rw [hres] at h2
    simp only [Except.ok.injEq, Option.some.injEq] at h2
    exact ⟨evs, hev, h2 ▸ ha⟩
  · rw [hres] at h2
    simp at h2
  · rw [hres] at h2
    simp at h2

/-- In a fresh world, the trace of a handler that writes nothing holds no write. -/
theorem NoWrite.trace_init {files : List FileRecord} {disk : List (String × List Nat)}
    {queue : List Job} {w2 : World} (h : NoWrite (World.init files disk queue) w2) :
    w2.files = files ∧ w2.disk = disk ∧ w2.queue = queue ∧
      ∀ x ∈ w2.trace, x.isWrite = false := by
  obtain ⟨h1, h2, h3, evs, h4, h5⟩ := h
  refine ⟨h1, h2, h3, ?_⟩
  intro x hx
  rw [h4] at hx
  simp only [World.init, List.nil_append] at hx
  exact h5 x hx

/-- C6. An authenticated upload with a non-empty name, the type `file` or
`image` and no data (absent or empty) is answered 400 "Missing data"; no
record is inserted, nothing is written to disk and no job is queued. -/
theorem postUpload_missing_data (env : Env) (req : Request) (files : List FileRecord)
    (disk : List (String × List Nat)) (queue : List Job) (u : User)
    (hauth : resolve env req = .ok (some u)) (hname : req.body.name.truthy = true)
    (htype : req.body.type = .str "file" ∨ req.body.type = .str "image")
    (hdata : req.body.data.truthy = false) :
    (postUpload env req (World.init files disk queue)).world.sent
        = [(400, .error "Missing data")] ∧
    (postUpload env req (World.init files disk queue)).completion = .returned ∧
    (postUpload env req (World.init files disk queue)).world.files = files ∧
    (postUpload env req (World.init files disk queue)).world.disk = disk ∧
    (postUpload env req (World.init files disk queue)).world.queue = queue ∧
    ∀ x ∈ (postUpload env req (World.init files disk queue)).world.trace,
      x.isWrite = false := by
  refine ⟨?_, ?_, (postUpload_noWrite env req _).trace_init⟩
  all_goals
    obtain ⟨evs, hev, ha⟩ := authenticate_of_resolve env req (World.init files disk queue) hauth
    have hsr : ((World.init files disk queue).log evs).sendResult = .returned :=
      World.sendResult_fresh (by simp [World.sent_log_lookups _ evs hev])
    rcases htype with ht | ht <;>
      simp [postUpload, ha, AuthResult.truthy, hname, ht, hdata, hsr,
        World.sent_log_lookups _ evs hev]

/-- C6, on sample data: user A uploads an image without data. -/
theorem postUpload_missing_data_witness :
    (postUpload Sample.env (Sample.upload (some "tokenA") (Sample.imageNoData .undefined))
        (World.init [Sample.folder] [] [])).world.sent = [(400, .error "Missing data")] ∧
    (postUpload Sample.env (Sample.upload (some "tokenA") (Sample.imageNoData .undefined))
        (World.init [Sample.folder] [] [])).completion = .returned ∧
    (postUpload Sample.env (Sample.upload (some "tokenA") (Sample.imageNoData .undefined))
        (World.init [Sample.folder] [] [])).world.files = [Sample.folder] ∧
    (postUpload Sample.env (Sample.upload (some "tokenA") (Sample.imageNoData .undefined))
        (World.init [Sample.folder] [] [])).world.disk = [] ∧
    (postUpload Sample.env (Sample.upload (some "tokenA") (Sample.imageNoData .undefined))
        (World.init [Sample.folder] [] [])).world.queue = [] ∧
    ∀ x ∈ (postUpload Sample.env
        (Sample.upload (some "tokenA") (Sample.imageNoData .undefined))
        (World.init [Sample.folder] [] [])).world.trace, x.isWrite = false :=
  postUpload_missing_data Sample.env
    (Sample.upload (some "tokenA") (Sample.imageNoData .undefined)) [Sample.folder] [] []
    ⟨Sample.idA⟩ (by rfl) (by decide) (by decide) (by decide)

/-- An authenticated upload that passes the checks on name, type and data
and has a parent other than the root reduces to the lookup of the parent. -/
theorem postUpload_at_parent (env : Env) (req : Request) (w : World) (u : User)
    (pid : ObjectId) (hauth : resolve env req = .ok (some u))
    (hname : req.body.name.truthy = true)
    (htype : req.body.type = .str "folder" ∨ req.body.type = .str "file"
      ∨ req.body.type = .str "image")
    (hdata : req.body.data.truthy = true ∨ req.body.type = .str "folder")
    (hroot : req.body.fileParentId ≠ .num 0)
    (hpid : env.toObjectId req.body.fileParentId = some pid) :
    ∃ evs, (∀ x ∈ evs, x.isLookup = true) ∧
      postUpload env req w =
        match findById w.files pid with
        | none =>
          ⟨((w.log evs).emit (.filesFindOne pid)).fail 400 "Parent not found",
            ((w.log evs).emit (.filesFindOne pid)).sendResult⟩
        | some parentFile =>
          if parentFile.type ≠ .str "folder" then
            ⟨((w.log evs).emit (.filesFindOne pid)).fail 400 "Parent is not a folder",
              ((w.log evs).emit (.filesFindOne pid)).sendResult⟩
          else
            ⟨(w.log evs).emit (.filesFindOne pid), .threw (.referenceError "fileIsPublic")⟩ := by
  obtain ⟨evs, hev, ha⟩ := authenticate_of_resolve env req w hauth
  refine ⟨evs, hev, ?_⟩
  have hfiles : (w.log evs).files = w.files := rfl
  rcases htype with ht | ht | ht <;> rcases hdata with hd | hd <;>
    simp only [postUpload, ha, AuthResult.truthy, hname, ht, hd, hroot, hpid, hfiles, findById,
      postUploadStore_throws, JsVal.truthy_folder, JsVal.truthy_file, JsVal.truthy_image,
      Bool.not_true, Bool.false_eq_true, if_false, if_true, Bool.or_false, Bool.false_and,
      Bool.false_or, ne_eq, not_false_eq_true, List.contains_cons, List.contains_nil,
      beq_self_eq_true, Bool.true_or, Bool.or_true, Bool.not_false, Bool.true_and] <;>
    simp_all

/-- C5, as stated, fails: an authenticated upload of an image whose
`parentId` is "abc", which is not the root and the id of no record, is not
answered 400 "Parent not found"; `ObjectId` rejects "abc" on line 36, the
handler throws and nothing is sent. -/
theorem postUpload_malformed_parent :
    resolve Sample.env (Sample.upload (some "tokenA") (Sample.image (.str "abc")))
      = .ok (some ⟨Sample.idA⟩) ∧
    (Sample.image (.str "abc")).fileParentId ≠ .num 0 ∧
    (postUpload Sample.env (Sample.upload (some "tokenA") (Sample.image (.str "abc")))
        (World.init [Sample.folder] [] [])).completion = .threw .invalidObjectId ∧
    (postUpload Sample.env (Sample.upload (some "tokenA") (Sample.image (.str "abc")))
        (World.init [Sample.folder] [] [])).world.sent = [] := by
  refine ⟨rfl, ?_, ?_, ?_⟩ <;> decide

/-- C5, amended. An authenticated upload that passes the checks on name, type
and data and whose parent is not the root and is a value that `ObjectId`
accepts: when no record has the parent id the answer is 400 "Parent not
found"; when the record with that id is not a folder the answer is 400
"Parent is not a folder"; and the `files` collection, the disk and the queue
are left as they were, no write being performed. -/
theorem postUpload_parent_checks (env : Env) (req : Request) (files : List FileRecord)
    (disk : List (String × List Nat)) (queue : List Job) (u : User) (pid : ObjectId)
    (hauth : resolve env req = .ok (some u)) (hname : req.body.name.truthy = true)
    (htype : req.body.type = .str "folder" ∨ req.body.type = .str "file"
      ∨ req.body.type = .str "image")
    (hdata : req.body.data.truthy = true ∨ req.body.type = .str "folder")
    (hroot : req.body.fileParentId ≠ .num 0)
    (hpid : env.toObjectId req.body.fileParentId = some pid) (hu : UniqueIds files) :
    ((∀ r ∈ files, r.id ≠ pid) →
        (postUpload env req (World.init files disk queue)).world.sent
            = [(400, .error "Parent not found")] ∧
        (postUpload env req (World.init files disk queue)).completion = .returned) ∧
    (∀ r ∈ files, r.id = pid → r.type ≠ .str "folder" →
        (postUpload env req (World.init files disk queue)).world.sent
            = [(400, .error "Parent is not a folder")] ∧
        (postUpload env req (World.init files disk queue)).completion = .returned) ∧
    (postUpload env req (World.init files disk queue)).world.files = files ∧
    (postUpload env req (World.init files disk queue)).world.disk = disk ∧
    (postUpload env req (World.init files disk queue)).world.queue = queue ∧
    ∀ x ∈ (postUpload env req (World.init files disk queue)).world.trace,
      x.isWrite = false := by
  obtain ⟨evs, hev, heq⟩ := postUpload_at_parent env req (World.init files disk queue) u pid
    hauth hname htype hdata hroot hpid
  have hfiles : (World.init files disk queue).files = files := rfl
  have hsr : (((World.init files disk queue).log evs).emit (.filesFindOne pid)).sendResult
      = .returned := World.sendResult_fresh (by simp [World.sent_log_lookups _ evs hev])
  refine ⟨?_, ?_, (postUpload_noWrite env req _).trace_init⟩
  · intro habsent
    rw [heq, hfiles, findById_none habsent]
    exact ⟨by simp [World.sent_log_lookups _ evs hev], hsr⟩
  · intro r hr hrid hnot
    have hfind : findById files pid = some r := hrid ▸ findById_of_mem hu hr
    rw [heq, hfiles, hfind]
    simp [hnot, hsr, World.sent_log_lookups _ evs hev]

/-- C5, amended, on sample data: user A uploads an image into a record that
is a file, and gets 400 "Parent is not a folder". -/
theorem postUpload_parent_checks_witness :
    (postUpload Sample.env
        (Sample.upload (some "tokenA") (Sample.image (.str Sample.idF.hex)))
        (World.init [Sample.file] Sample.disk [])).world.sent
      = [(400, .error "Parent is not a folder")] ∧
    (postUpload Sample.env
        (Sample.upload (some "tokenA") (Sample.image (.str Sample.idF.hex)))
        (World.init [Sample.file] Sample.disk [])).completion = .returned :=
  (postUpload_parent_checks Sample.env
    (Sample.upload (some "tokenA") (Sample.image (.str Sample.idF.hex)))
    [Sample.file] Sample.disk [] ⟨Sample.idA⟩ Sample.idF (by rfl) (by decide) (by decide)
    (by decide) (by decide) (by decide) (by decide)).2.1 Sample.file (by decide) (by decide)
    (by decide)

/-! ## The claims on `getIndex` -/

theorem bitLengthAux_le (fuel : Nat) : ∀ n k : Nat, n < 2 ^ k → bitLengthAux fuel n ≤ k := by
  induction fuel with
  | zero => intro n k _; exact Nat.zero_le k
  | succ fuel ih =>
    intro n k h
    unfold bitLengthAux
    by_cases hn : n = 0
    · rw [if_pos hn]
      exact Nat.zero_le k
    · rw [if_neg hn]
      cases k with
      | zero =>
        simp only [pow_zero, Nat.lt_one_iff] at h
        exact absurd h hn
      | succ k =>
        have hhalf : n / 2 < 2 ^ k := by
          rw [pow_succ] at h
          omega
        exact Nat.succ_le_succ (ih (n / 2) k hhalf)

/-- A natural number below `2 ^ 53` is a double. -/
theorem roundToDouble_small {n : Nat} (h : n < 2 ^ 53) : roundToDouble n = some n := by
  have hbits : bitLength n ≤ 53 := bitLengthAux_le n n 53 h
  unfold roundToDouble
  simp only []
  rw [if_pos hbits]

/-- The product of line 98 is exact as long as it stays below `2 ^ 53`. -/
theorem times20_small {p : Nat} (h : 20 * p < 2 ^ 53) :
    (JsNum.int (p : Int)).times20 = .int ((20 * p : Nat) : Int) := by
  have hround : roundToDouble (p * 20) = some (20 * p) := by
    rw [Nat.mul_comm p 20]
    exact roundToDouble_small h
  have hneg : decide ((p : Int) < 0) = false := by
    simp
  simp only [JsNum.times20, JsNum.ofSigned, hneg, Int.natAbs_ofNat, hround, Bool.false_eq_true,
    if_false]

/-- The page number that line 93 computes, read off the query string. -/
theorem pagination_of_query {req : Request} {p : Nat}
    (hp : (req.queryPage = none ∧ p = 0) ∨
      ∃ s, req.queryPage = some s ∧ (parseInt s = .int (p : Int) ∨ (parseInt s = .nan ∧ p = 0))) :
    pagination req = .int (p : Int) := by
  rcases hp with ⟨hq, rfl⟩ | ⟨s, hq, hs | ⟨hs, rfl⟩⟩
  · simp [pagination, hq, JsNum.orZero]
  · simp [pagination, hq, hs, JsNum.orZero]
  · simp [pagination, hq, hs, JsNum.orZero]

theorem JsVal.beq_eq_decide (a b : JsVal) : (a == b) = decide (b = a) := by
  by_cases h : b = a
  · subst h
    simp
  · have h2 : ¬ a = b := fun h3 => h h3.symm
    simp [h, h2]

/-- The filter value that line 92 computes, read off the query string. -/
theorem indexParentId_of_query {req : Request} {want : JsVal}
    (hwant : ((req.queryParentId = none ∨ req.queryParentId = some "") ∧ want = .num 0) ∨
      ∃ s, req.queryParentId = some s ∧ s ≠ "" ∧ s ≠ "0" ∧ want = .str s) :
    req.indexParentId = want ∧ ∀ v, mongoEq want v = decide (v = want) := by
  rcases hwant with ⟨hq | hq, rfl⟩ | ⟨s, hq, hs, -, rfl⟩
  · refine ⟨by simp [Request.indexParentId, hq, JsVal.ofOptStr, JsVal.or, JsVal.truthy], ?_⟩
    intro v
    exact JsVal.beq_eq_decide _ v
  · refine ⟨by simp [Request.indexParentId, hq, JsVal.ofOptStr, JsVal.or, JsVal.truthy], ?_⟩
    intro v
    exact JsVal.beq_eq_decide _ v
  · refine ⟨by simp [Request.indexParentId, hq, JsVal.ofOptStr, JsVal.or, JsVal.truthy, hs], ?_⟩
    intro v
    exact JsVal.beq_eq_decide _ v

/-- An authenticated listing whose page number is `p`, with `20 * p` below
`2 ^ 53`, runs the pipeline with `$skip: 20 * p` and sends its result. -/
theorem getIndex_of_page (env : Env) (req : Request) (files : List FileRecord)
    (disk : List (String × List Nat)) (queue : List Job) (u : User) (p : Nat)
    (hauth : resolve env req = .ok (some u)) (hp : pagination req = .int (p : Int))
    (hbound : 20 * p < 2 ^ 53) :
    (getIndex env req (World.init files disk queue)).world.sent
        = [(200, .files (((files.filter fun r => mongoEq req.indexParentId r.parentId).drop
            (20 * p)).take 20))] ∧
    (getIndex env req (World.init files disk queue)).completion = .returned := by
  obtain ⟨evs, hev, ha⟩ := authenticate_of_resolve env req (World.init files disk queue) hauth
  have hskip : ¬ ((((20 * p : Nat) : Int) < 0) ∨ (2 : Int) ^ 63 ≤ ((20 * p : Nat) : Int)) := by
    have h63 : (2 : Int) ^ 63 = 9223372036854775808 := by norm_num
    have h53 : (2 : Nat) ^ 53 = 9007199254740992 := by norm_num
    rw [h63]
    rw [h53] at hbound
    omega
  have hnat : (((20 * p : Nat) : Int)).toNat = 20 * p := Int.toNat_ofNat _
  have hfiles : ((World.init files disk queue).log evs).files = files := rfl
  have hsr : (((World.init files disk queue).log evs).emit
      (.filesAggregate req.indexParentId (.int ((20 * p : Nat) : Int)))).sendResult
        = .returned := World.sendResult_fresh (by simp [World.sent_log_lookups _ evs hev])
  have hstatus0 : (World.init files disk queue).statusCode = 200 := rfl
  have hget : getIndex env req (World.init files disk queue)
      = ⟨(((World.init files disk queue).log evs).emit
            (.filesAggregate req.indexParentId (.int ((20 * p : Nat) : Int)))).send
          (.files (((files.filter fun r => mongoEq req.indexParentId r.parentId).drop
            (20 * p)).take 20)), .returned⟩ := by
    simp only [getIndex, ha, AuthResult.truthy, hp, times20_small hbound, aggregate, hskip,
      hnat, hfiles, hsr, Bool.not_true, Bool.false_eq_true, if_false]
  rw [hget]
  exact ⟨by simp [World.sent_log_lookups _ evs hev, hstatus0], rfl⟩

/-- C7, as stated, fails: an authenticated listing with `page=-1` sends no
list; the store rejects the stage `$skip: -20` and the handler throws. -/
theorem getIndex_negative_page :
    resolve Sample.env (Sample.list (some "tokenA") none (some "-1"))
      = .ok (some ⟨Sample.idA⟩) ∧
    (getIndex Sample.env (Sample.list (some "tokenA") none (some "-1"))
        (World.init [Sample.folder] [] [])).completion = .threw .invalidSkip ∧
    (getIndex Sample.env (Sample.list (some "tokenA") none (some "-1"))
        (World.init [Sample.folder] [] [])).world.sent = [] := by
  refine ⟨rfl, ?_, ?_⟩ <;> decide

/-- C7, amended. An authenticated listing whose `parentId` parameter is absent
(or empty) or is a string other than "0", and whose page `p` is not negative
with `20 * p` below `2 ^ 53` (`p` is what `parseInt` reads in the `page`
parameter, or 0 when `page` is absent or not a number): the answer is the
list of the records whose stored `parentId` is the number 0 (parameter
absent) or the given string, in the order of the collection, without the
first `20 * p` and cut after 20. It holds at most 20 records, and it is the
empty list, not an error, when `20 * p` reaches the number of such records. -/
theorem getIndex_page (env : Env) (req : Request) (files : List FileRecord)
    (disk : List (String × List Nat)) (queue : List Job) (u : User) (p : Nat) (want : JsVal)
    (hauth : resolve env req = .ok (some u))
    (hwant : ((req.queryParentId = none ∨ req.queryParentId = some "") ∧ want = .num 0) ∨
      ∃ s, req.queryParentId = some s ∧ s ≠ "" ∧ s ≠ "0" ∧ want = .str s)
    (hp : (req.queryPage = none ∧ p = 0) ∨
      ∃ s, req.queryPage = some s ∧ (parseInt s = .int (p : Int) ∨ (parseInt s = .nan ∧ p = 0)))
    (hbound : 20 * p < 2 ^ 53) :
    (getIndex env req (World.init files disk queue)).world.sent
        = [(200, .files (((files.filter fun r => decide (r.parentId = want)).drop
            (20 * p)).take 20))] ∧
    (getIndex env req (World.init files disk queue)).completion = .returned ∧
    (((files.filter fun r => decide (r.parentId = want)).drop (20 * p)).take 20).length ≤ 20 ∧
    ((files.filter fun r => decide (r.parentId = want)).length ≤ 20 * p →
      (getIndex env req (World.init files disk queue)).world.sent = [(200, .files [])]) := by
  obtain ⟨hsent, hdone⟩ := getIndex_of_page env req files disk queue u p hauth
    (pagination_of_query hp) hbound
  obtain ⟨hparent, hmatch⟩ := indexParentId_of_query hwant
  have hfilter : (files.filter fun r => mongoEq req.indexParentId r.parentId)
      = files.filter fun r => decide (r.parentId = want) := by
    rw [hparent]
    exact List.filter_congr (fun r _ => hmatch r.parentId)
  rw [hfilter] at hsent
  refine ⟨hsent, hdone, List.length_take_le _ _, ?_⟩
  intro hlen
  rw [hsent, List.drop_eq_nil_of_le hlen]
  rfl

/-- C7, amended, on sample data: user A lists page 0 of the folder `idF`,
which holds one of the two stored records, then page 1, which is empty. -/
theorem getIndex_page_witness :
    (getIndex Sample.env (Sample.list (some "tokenA") (some Sample.idF.hex) (some "0"))
        (World.init [Sample.folder, Sample.child] [] [])).world.sent
      = [(200, .files [Sample.child])] ∧
    (getIndex Sample.env (Sample.list (some "tokenA") (some Sample.idF.hex) (some "1"))
        (World.init [Sample.folder, Sample.child] [] [])).world.sent
      = [(200, .files [])] :=
  ⟨(getIndex_page Sample.env (Sample.list (some "tokenA") (some Sample.idF.hex) (some "0"))
      [Sample.folder, Sample.child] [] [] ⟨Sample.idA⟩ 0 (.str Sample.idF.hex) (by rfl)
      (Or.inr ⟨Sample.idF.hex, rfl, by decide, by decide, rfl⟩)
      (Or.inr ⟨"0", rfl, Or.inl (by decide)⟩) (by decide)).1,
   (getIndex_page Sample.env (Sample.list (some "tokenA") (some Sample.idF.hex) (some "1"))
      [Sample.folder, Sample.child] [] [] ⟨Sample.idA⟩ 1 (.str Sample.idF.hex) (by rfl)
      (Or.inr ⟨Sample.idF.hex, rfl, by decide, by decide, rfl⟩)
      (Or.inr ⟨"1", rfl, Or.inl (by decide)⟩) (by decide)).2.2.2 (by decide)⟩

/-! ## The claims on `getShow`, `putPublish` and `putUnpublish` -/

/-- The owner-scoped lookup of a record that another user owns finds nothing. -/
theorem findOwned_foreign {files : List FileRecord} {r : FileRecord} {u : User}
    (hu : UniqueIds files) (hr : r ∈ files) (hforeign : r.userId ≠ .oid u.id) :
    findOwned files r.id (.oid u.id) = none := by
  rw [findOwned_of_mem hu hr]
  have : mongoEq (.oid u.id) r.userId = false := by
    cases h : mongoEq (.oid u.id) r.userId with
    | false => rfl
    | true => exact absurd ((mongoEq_oid _ _).mp h) hforeign
  simp [this]

/-- An authenticated `getShow`, `putPublish` or `putUnpublish` whose
owner-scoped lookup finds nothing answers 404 Not found and leaves the
collection as it was. -/
theorem notFound_of_lookup_none (op : Op)
    (hop : op = .getShow ∨ op = .putPublish ∨ op = .putUnpublish) (env : Env) (req : Request)
    (files : List FileRecord) (disk : List (String × List Nat)) (queue : List Job) (u : User)
    (fid : ObjectId) (hauth : resolve env req = .ok (some u))
    (hid : env.toObjectId req.idFile = some fid) (hnone : findOwned files fid (.oid u.id) = none) :
    (op.run env req (World.init files disk queue)).world.sent = [(404, .error "Not found")] ∧
    (op.run env req (World.init files disk queue)).completion = .returned ∧
    (op.run env req (World.init files disk queue)).world.files = files := by
  obtain ⟨evs, hev, ha⟩ := authenticate_of_resolve env req (World.init files disk queue) hauth
  have hfiles : (World.init files disk queue).files = files := rfl
  have hsr : (((World.init files disk queue).log evs).emit (.filesFindOne fid)).sendResult
      = .returned := World.sendResult_fresh (by simp [World.sent_log_lookups _ evs hev])
  rcases hop with rfl | rfl | rfl <;>
    simp [Op.run, getShow, putPublish, putUnpublish, setPublic, ha, AuthResult.truthy,
      AuthResult.idField, hid, hfiles, hnone, hsr, World.sent_log_lookups _ evs hev]

/-- C9. For `getShow`, `putPublish` and `putUnpublish` and an authenticated
caller, a request for the id of a record owned by another user and a request
for an id that no record has get the same answer, 404 Not found, and both
leave the `files` collection unchanged. -/
theorem foreign_record_looks_absent (op : Op)
    (hop : op = .getShow ∨ op = .putPublish ∨ op = .putUnpublish) (env : Env)
    (reqA reqB : Request) (filesA filesB : List FileRecord)
    (disk : List (String × List Nat)) (queue : List Job) (u : User) (r : FileRecord)
    (idB : ObjectId) (hauthA : resolve env reqA = .ok (some u))
    (hauthB : resolve env reqB = .ok (some u)) (hu : UniqueIds filesA) (hr : r ∈ filesA)
    (hidA : env.toObjectId reqA.idFile = some r.id) (hforeign : r.userId ≠ .oid u.id)
    (hidB : env.toObjectId reqB.idFile = some idB) (habsent : ∀ x ∈ filesB, x.id ≠ idB) :
    (op.run env reqA (World.init filesA disk queue)).world.sent = [(404, .error "Not found")] ∧
    (op.run env reqB (World.init filesB disk queue)).world.sent = [(404, .error "Not found")] ∧
    (op.run env reqA (World.init filesA disk queue)).completion = .returned ∧
    (op.run env reqB (World.init filesB disk queue)).completion = .returned ∧
    (op.run env reqA (World.init filesA disk queue)).world.files = filesA ∧
    (op.run env reqB (World.init filesB disk queue)).world.files = filesB := by
  obtain ⟨a1, a2, a3⟩ := notFound_of_lookup_none op hop env reqA filesA disk queue u r.id
    hauthA hidA (findOwned_foreign hu hr hforeign)
  obtain ⟨b1, b2, b3⟩ := notFound_of_lookup_none op hop env reqB filesB disk queue u idB
    hauthB hidB (findOwned_none_of_absent _ habsent)
  exact ⟨a1, b1, a2, b2, a3, b3⟩

/-- C9, on sample data: user B asks to publish a folder of user A, and to
publish a record that does not exist. -/
theorem foreign_record_looks_absent_witness :
    (Op.putPublish.run Sample.env (Sample.onFile (some "tokenB") Sample.idF)
        (World.init [Sample.folder] [] [])).world.sent = [(404, .error "Not found")] ∧
    (Op.putPublish.run Sample.env (Sample.onFile (some "tokenB") Sample.idNone)
        (World.init [Sample.folder] [] [])).world.sent = [(404, .error "Not found")] ∧
    (Op.putPublish.run Sample.env (Sample.onFile (some "tokenB") Sample.idF)
        (World.init [Sample.folder] [] [])).completion = .returned ∧
    (Op.putPublish.run Sample.env (Sample.onFile (some "tokenB") Sample.idNone)
        (World.init [Sample.folder] [] [])).completion = .returned ∧
    (Op.putPublish.run Sample.env (Sample.onFile (some "tokenB") Sample.idF)
        (World.init [Sample.folder] [] [])).world.files = [Sample.folder] ∧
    (Op.putPublish.run Sample.env (Sample.onFile (some "tokenB") Sample.idNone)
        (World.init [Sample.folder] [] [])).world.files = [Sample.folder] :=
  foreign_record_looks_absent .putPublish (by decide) Sample.env
    (Sample.onFile (some "tokenB") Sample.idF) (Sample.onFile (some "tokenB") Sample.idNone)
    [Sample.folder] [Sample.folder] [] [] ⟨Sample.idB⟩ Sample.folder Sample.idNone
    (by rfl) (by rfl) (by decide) (by decide) (by decide) (by decide) (by decide) (by decide)

/-! ## The claim on what the operations keep -/

theorem requesterIsOwner_noWrite (env : Env) (token userId : JsVal) (w0 w : World)
    (h : NoWrite w0 w) : NoWrite w0 (requesterIsOwner env token userId w).1 := by
  have hget : ∀ key, NoWrite w0 (w.emit (.redisGet key)) := fun key => h.emit rfl
  have huser : ∀ key id, NoWrite w0 ((w.emit (.redisGet key)).emit (.usersFindOne id)) :=
    fun key id => (hget key).emit rfl
  unfold requesterIsOwner
  by_cases h1 : (!token.truthy) = true
  · rw [if_pos h1]
    exact h
  · rw [if_neg h1]
    simp only []
    by_cases h2 : (!(JsVal.ofOptStr (env.redis ("auth_" ++ token.interpolate))).truthy) = true
    · rw [if_pos h2]
      exact hget _
    · rw [if_neg h2]
      cases env.toObjectId (JsVal.ofOptStr (env.redis ("auth_" ++ token.interpolate))) with
      | none => exact hget _
      | some uid =>
        simp only []
        cases env.users.find? (fun u => u.id == uid) with
        | none => exact huser _ _
        | some user => cases userId <;> exact huser _ _

theorem getFileAnswer_noWrite (env : Env) (req : Request) (doc : FileRecord) (owner : Bool)
    (w0 w : World) (h : NoWrite w0 w) :
    NoWrite w0 (getFileAnswer env req doc owner w).world := by
  unfold getFileAnswer
  by_cases h1 : (!doc.isPublic.truthy && !owner) = true
  · rw [if_pos h1]
    exact h.fail _ _
  · rw [if_neg h1]
    by_cases h2 : doc.type = .str "folder"
    · rw [if_pos h2]
      exact h.fail _ _
    · rw [if_neg h2]
      cases realPath req doc with
      | str path =>
        simp only []
        cases w.readDisk path with
        | none => exact (h.readFile path).fail _ _
        | some dataFile =>
          simp only []
          by_cases h3 : (w.emit (.readFile path)).headersSent = true
          · rw [if_pos h3]
            exact (h.readFile path).fail _ _
          · rw [if_neg h3]
            exact (h.readFile path).send _
      | undefined => exact h.fail _ _
      | null => exact h.fail _ _
      | bool b => exact h.fail _ _
      | num n => exact h.fail _ _
      | oid i => exact h.fail _ _

/-- Whatever the request, `getFile` writes nothing. -/
theorem getFile_noWrite (env : Env) (req : Request) (w : World) :
    NoWrite w (getFile env req w).world := by
  simp only [getFile]
  cases env.toObjectId req.idFile with
  | none => exact NoWrite.refl w
  | some fid =>
    simp only []
    cases findById w.files fid with
    | none => exact ((NoWrite.refl w).findOne fid).fail _ _
    | some doc =>
      simp only []
      have h := requesterIsOwner_noWrite env ((JsVal.ofOptStr req.xToken).or .null) doc.userId w
        (w.emit (.filesFindOne fid)) ((NoWrite.refl w).findOne fid)
      rcases hrio : requesterIsOwner env ((JsVal.ofOptStr req.xToken).or .null) doc.userId
        (w.emit (.filesFindOne fid)) with ⟨w2, res⟩
      rw [hrio] at h
      cases res with
      | error e => exact h
      | ok owner => exact getFileAnswer_noWrite env req doc owner w w2 h

/-- A record of a collection that is left as it was is kept as it was. -/
theorem kept_of_files_eq {files files2 : List FileRecord} {r : FileRecord} (P : Prop)
    (h : files2 = files) (hr : r ∈ files) :
    ∃ r2 ∈ files2, r2.id = r.id ∧ r2.userId = r.userId ∧ r2.name = r.name ∧
      r2.type = r.type ∧ r2.parentId = r.parentId ∧ r2.localPath = r.localPath ∧
      (r2.isPublic ≠ r.isPublic → P) :=
  ⟨r, h ▸ hr, rfl, rfl, rfl, rfl, rfl, rfl, fun hne => absurd rfl hne⟩

/-- What `putPublish` and `putUnpublish` keep of a stored record that has an
owner: everything but `isPublic`, which changes only when the request names
the record and comes from its owner. -/
theorem setPublic_keeps (value : Bool) (env : Env) (req : Request) (w : World)
    (r : FileRecord) (o : ObjectId) (hu : UniqueIds w.files) (hr : r ∈ w.files)
    (ho : r.userId = .oid o) :
    ∃ r2 ∈ (setPublic value env req w).world.files,
      r2.id = r.id ∧ r2.userId = r.userId ∧ r2.name = r.name ∧ r2.type = r.type ∧
      r2.parentId = r.parentId ∧ r2.localPath = r.localPath ∧
      (r2.isPublic ≠ r.isPublic →
        env.toObjectId req.idFile = some r.id ∧
        ∃ u, resolve env req = .ok (some u) ∧ u.id = o) := by
  have hkey : ∀ (user : AuthResult) (w1 : World) (fid : ObjectId) (d : FileRecord),
      w1.files = w.files → env.toObjectId req.idFile = some fid →
      findOwned w1.files fid user.idField = some d →
      (∀ u, user = .user u → resolve env req = .ok (some u)) →
      ∃ r2 ∈ updateOne w1.files fid value,
        r2.id = r.id ∧ r2.userId = r.userId ∧ r2.name = r.name ∧ r2.type = r.type ∧
        r2.parentId = r.parentId ∧ r2.localPath = r.localPath ∧
        (r2.isPublic ≠ r.isPublic →
          env.toObjectId req.idFile = some r.id ∧
          ∃ u, resolve env req = .ok (some u) ∧ u.id = o) := by
    intro user w1 fid d hf hid hfound hres
    rw [hf] at hfound ⊢
    obtain ⟨r2, hr2, h1, h2, h3, h4, h5, h6, h7⟩ := updateOne_keeps w.files fid value r hr
    refine ⟨r2, hr2, h1, h2, h3, h4, h5, h6, ?_⟩
    intro hne
    have hfid : r.id = fid := h7 hne
    subst hfid
    rw [findOwned_of_mem hu hr] at hfound
    have hmatch : mongoEq user.idField r.userId = true := by
      by_contra hc
      simp [hc] at hfound
    refine ⟨hid, ?_⟩
    cases user with
    | response =>
      rw [ho] at hmatch
      simp [AuthResult.idField, mongoEq_undefined_oid] at hmatch
    | user u =>
      have hoid : r.userId = .oid u.id := (mongoEq_oid _ _).mp hmatch
      rw [ho] at hoid
      simp only [JsVal.oid.injEq] at hoid
      exact ⟨u, hres u rfl, hoid.symm⟩
  obtain ⟨evs, hev, h⟩ := authenticate_spec env req w
  rcases h with ⟨u, hres, ha⟩ | ⟨hres, ha⟩ | ⟨err, hres, ha⟩
  · simp only [setPublic, ha, AuthResult.truthy, Bool.not_true, Bool.false_eq_true, if_false]
    split
    · exact kept_of_files_eq _ rfl hr
    · rename_i fid hid
      split
      · exact kept_of_files_eq _ rfl hr
      · rename_i d hfound
        exact hkey (.user u) (w.log evs) fid d rfl hid hfound
          (fun u2 h2 => by cases h2; exact hres)
  · rcases unauthorized_cases (w.log evs) with hun | hun
    · rw [hun] at ha
      simp only [setPublic, ha, AuthResult.truthy, Bool.not_true, Bool.false_eq_true, if_false]
      split
      · exact kept_of_files_eq _ rfl hr
      · rename_i fid hid
        split
        · exact kept_of_files_eq _ rfl hr
        · rename_i d hfound
          exact hkey .response ((w.log evs).fail 401 "Unauthorized") fid d rfl hid hfound
            (fun u2 h2 => by cases h2)
    · rw [hun] at ha
      simp only [setPublic, ha]
      exact kept_of_files_eq _ rfl hr
  · simp only [setPublic, ha]
    exact kept_of_files_eq _ rfl hr

/-- C10. Whatever the operation and the request, a record of the `files`
collection that has an owner is still there afterwards with the same `userId`,
`name`, `type`, `parentId` and `localPath`, and its `isPublic` is changed only
by `putPublish` or `putUnpublish` on a request that names the record and comes
from the user who owns it. -/
theorem records_kept (op : Op) (env : Env) (req : Request) (w : World) (r : FileRecord)
    (o : ObjectId) (hu : UniqueIds w.files) (hr : r ∈ w.files) (ho : r.userId = .oid o) :
    ∃ r2 ∈ (op.run env req w).world.files,
      r2.id = r.id ∧ r2.userId = r.userId ∧ r2.name = r.name ∧ r2.type = r.type ∧
      r2.parentId = r.parentId ∧ r2.localPath = r.localPath ∧
      (r2.isPublic ≠ r.isPublic →
        (op = .putPublish ∨ op = .putUnpublish) ∧
        env.toObjectId req.idFile = some r.id ∧
        ∃ u, resolve env req = .ok (some u) ∧ u.id = o) := by
  cases op with
  | postUpload => exact kept_of_files_eq _ (postUpload_noWrite env req w).1 hr
  | getShow => exact kept_of_files_eq _ (getShow_noWrite env req w).1 hr
  | getIndex => exact kept_of_files_eq _ (getIndex_noWrite env req w).1 hr
  | getFile => exact kept_of_files_eq _ (getFile_noWrite env req w).1 hr
  | putPublish =>
    obtain ⟨r2, hr2, h1, h2, h3, h4, h5, h6, h7⟩ := setPublic_keeps true env req w r o hu hr ho
    exact ⟨r2, hr2, h1, h2, h3, h4, h5, h6, fun hne => ⟨Or.inl rfl, h7 hne⟩⟩
  | putUnpublish =>
    obtain ⟨r2, hr2, h1, h2, h3, h4, h5, h6, h7⟩ := setPublic_keeps false env req w r o hu hr ho
    exact ⟨r2, hr2, h1, h2, h3, h4, h5, h6, fun hne => ⟨Or.inr rfl, h7 hne⟩⟩

/-- C10, on sample data: user A publishes a private folder of theirs. -/
theorem records_kept_witness :
    ∃ r2 ∈ (Op.putPublish.run Sample.env (Sample.onFile (some "tokenA") Sample.idF)
        (World.init [Sample.folder] [] [])).world.files,
      r2.id = Sample.folder.id ∧ r2.userId = Sample.folder.userId ∧
      r2.name = Sample.folder.name ∧ r2.type = Sample.folder.type ∧
      r2.parentId = Sample.folder.parentId ∧ r2.localPath = Sample.folder.localPath ∧
      (r2.isPublic ≠ Sample.folder.isPublic →
        (Op.putPublish = .putPublish ∨ Op.putPublish = .putUnpublish) ∧
        Sample.env.toObjectId (Sample.onFile (some "tokenA") Sample.idF).idFile
          = some Sample.folder.id ∧
        ∃ u, resolve Sample.env (Sample.onFile (some "tokenA") Sample.idF) = .ok (some u) ∧
          u.id = Sample.idA) :=
  records_kept .putPublish Sample.env (Sample.onFile (some "tokenA") Sample.idF)
    (World.init [Sample.folder] [] []) Sample.folder Sample.idA (by decide) (by decide)
    (by decide)

end FilesManager
